import Mathlib

/-!
# Delivery order price calculator: embedding and verification

A shallow embedding of `internal/handler/price.go` and the records of
`internal/homeapi/types.go`.

* Go `int` is taken to be 64 bits wide (as on every 64-bit target): a value is a
  mathematical integer and `+`, `-` wrap modulo `2^64` (`wrap64`).
* Go `float64` is IEEE 754 binary64 with round-to-nearest, ties-to-even (`F64`);
  every operation is rounded on its own (no fused multiply-add, as on amd64).
* What lives outside the repository (package `math`, package `strconv`, the result
  of an out-of-range float-to-int conversion) is a parameter (`Runtime`).
* The two goroutines and the `select` loop become an explicit `Schedule`: the
  order in which the `select` statement fires its cases.
-/

namespace DOPC

/-! ## Machine integers -/

/-- Two's-complement wrap-around of a mathematical integer into the range of a
64-bit Go `int`. -/
def wrap64 (x : ℤ) : ℤ := (x + 2 ^ 63) % 2 ^ 64 - 2 ^ 63

/-- The range of a 64-bit Go `int`. -/
def IsInt64 (x : ℤ) : Prop := -(2 ^ 63) ≤ x ∧ x < 2 ^ 63

instance decidableIsInt64 (x : ℤ) : Decidable (IsInt64 x) :=
  inferInstanceAs (Decidable (-(2 ^ 63) ≤ x ∧ x < 2 ^ 63))

/-- Go `x + y` on `int`. -/
def add64 (x y : ℤ) : ℤ := wrap64 (x + y)

/-- Go `x - y` on `int`. -/
def sub64 (x y : ℤ) : ℤ := wrap64 (x - y)

/-! ## binary64

A finite `float64` is a sign and a magnitude, the magnitude being a rational
number; `NaN` and the two infinities are separate values, and zero is signed.
Every arithmetic operation computes the exact rational result and rounds it once
(`roundMag`), to nearest with ties to even, as IEEE 754 prescribes. -/

/-- Bit length minus one of `n`, by halving; `fuel` bounds the number of halvings. -/
def log2Fuel : ℕ → ℕ → ℕ
  | 0, _ => 0
  | fuel + 1, n => if n < 2 then 0 else log2Fuel fuel (n / 2) + 1

/-- The exponent of the greatest power of two that is at most `n`, for `n ≥ 1`. -/
def natLog2 (n : ℕ) : ℕ := log2Fuel n n

/-- The power of two `2 ^ e` as a rational number. -/
def pow2 (e : ℤ) : ℚ :=
  if 0 ≤ e then ((2 ^ e.toNat : ℕ) : ℚ) else 1 / ((2 ^ (-e).toNat : ℕ) : ℚ)

/-- The binary exponent of a positive rational `q`: the `e` with
`2 ^ e ≤ q < 2 ^ (e + 1)`. -/
def ilog2 (q : ℚ) : ℤ :=
  if q < pow2 ((natLog2 q.num.natAbs : ℤ) - (natLog2 q.den : ℤ)) then
    (natLog2 q.num.natAbs : ℤ) - (natLog2 q.den : ℤ) - 1
  else
    (natLog2 q.num.natAbs : ℤ) - (natLog2 q.den : ℤ)

/-- Round a non-negative rational to the nearest natural number, ties to even. -/
def roundHalfEven (q : ℚ) : ℕ :=
  if q - ⌊q⌋₊ < 1 / 2 then ⌊q⌋₊
  else if 1 / 2 < q - ⌊q⌋₊ then ⌊q⌋₊ + 1
  else if ⌊q⌋₊ % 2 = 0 then ⌊q⌋₊ else ⌊q⌋₊ + 1

/-- The exponent of the unit in the last place at magnitude `q`: 53 significant
bits for a normal number, and the fixed spacing `2 ^ (-1074)` of the subnormal
numbers below `2 ^ (-1022)`. -/
def ulpExp (q : ℚ) : ℤ := max (ilog2 q) (-1022) - 52

/-- The magnitude `q ≥ 0` rounded to the binary64 grid (exponent range unbounded
above). -/
def roundMag (q : ℚ) : ℚ := (roundHalfEven (q / pow2 (ulpExp q)) : ℚ) * pow2 (ulpExp q)

/-- The largest finite binary64 magnitude, `(2^53 - 1) * 2^971`. -/
def maxFloat : ℚ := ((2 ^ 53 - 1 : ℕ) : ℚ) * pow2 971

/-- A `float64` value. `fin neg mag` is the finite number `(-1)^neg * mag`, `mag ≥ 0`
(so `fin true 0` is the negative zero). -/
inductive F64 where
  | nan : F64
  | inf (neg : Bool) : F64
  | fin (neg : Bool) (mag : ℚ) : F64
deriving DecidableEq

namespace F64

/-- The float nearest to the exact magnitude `q ≥ 0` with the given sign: an
infinity when the rounded magnitude exceeds the largest finite one. -/
def ofMag (neg : Bool) (q : ℚ) : F64 :=
  if roundMag q ≤ maxFloat then fin neg (roundMag q) else inf neg

/-- The float nearest to the exact signed value `q`; an exact zero takes the sign
`zeroNeg`. -/
def ofRat (zeroNeg : Bool) (q : ℚ) : F64 :=
  if q = 0 then fin zeroNeg 0 else ofMag (decide (q < 0)) |q|

/-- The exact value of a finite float (0 for the others). -/
def toRat : F64 → ℚ
  | fin s m => if s then -m else m
  | _ => 0

/-- A finite number (neither `NaN` nor an infinity). -/
def isFinite : F64 → Bool
  | fin _ _ => true
  | _ => false

/-- A finite number of magnitude at most `b`: a value in `[-b, b]`. -/
def absLe (x : F64) (b : ℚ) : Bool :=
  match x with
  | fin _ m => decide (0 ≤ m ∧ m ≤ b)
  | _ => false

/-- Unary minus `-x`. -/
def neg : F64 → F64
  | nan => nan
  | inf s => inf (!s)
  | fin s m => fin (!s) m

/-- Go `x + y`. An exact zero sum is negative only when both operands are. -/
def add : F64 → F64 → F64
  | nan, _ => nan
  | _, nan => nan
  | inf a, inf b => if a = b then inf a else nan
  | inf a, fin _ _ => inf a
  | fin _ _, inf b => inf b
  | fin s m, fin t n => ofRat (s && t) ((fin s m).toRat + (fin t n).toRat)

/-- Go `x - y`, which is `x + (-y)`. -/
def sub (x y : F64) : F64 := x.add y.neg

/-- Go `x * y`. -/
def mul : F64 → F64 → F64
  | nan, _ => nan
  | _, nan => nan
  | inf a, inf b => inf (xor a b)
  | inf a, fin t n => if n = 0 then nan else inf (xor a t)
  | fin s m, inf b => if m = 0 then nan else inf (xor s b)
  | fin s m, fin t n => ofMag (xor s t) (m * n)

/-- Go `x / y`. -/
def div : F64 → F64 → F64
  | nan, _ => nan
  | _, nan => nan
  | inf _, inf _ => nan
  | inf a, fin t _ => inf (xor a t)
  | fin s _, inf b => fin (xor s b) 0
  | fin s m, fin t n =>
    if n = 0 then (if m = 0 then nan else inf (xor s t)) else ofMag (xor s t) (m / n)

/-- Go `x < y`: false as soon as one side is `NaN`. -/
def lt : F64 → F64 → Bool
  | nan, _ => false
  | _, nan => false
  | inf a, inf b => a && !b
  | inf a, fin _ _ => a
  | fin _ _, inf b => !b
  | fin s m, fin t n => decide ((fin s m).toRat < (fin t n).toRat)

/-- Go `x > y`. -/
def gt (x y : F64) : Bool := y.lt x

/-- The conversion `float64(n)` of an `int`. -/
def ofInt (n : ℤ) : F64 := ofRat false n

/-- `math.Round`: the nearest integer, halves away from zero; `±0`, `±Inf` and
`NaN` are returned unchanged. -/
def round : F64 → F64
  | nan => nan
  | inf s => inf s
  | fin s m => fin s ⌊m + 1 / 2⌋₊

/-- The integer a finite float truncates to. -/
def truncate (s : Bool) (m : ℚ) : ℤ := if s then -(⌊m⌋₊ : ℤ) else (⌊m⌋₊ : ℤ)

/-- The conversion `int(x)`: truncation toward zero. When `x` is `NaN`, an
infinity or out of the range of `int`, the Go specification leaves the value to
the implementation: `undef` supplies it. -/
def toInt (undef : F64 → ℤ) : F64 → ℤ
  | fin s m => if IsInt64 (truncate s m) then truncate s m else wrap64 (undef (fin s m))
  | x => wrap64 (undef x)

/-- The constant `math.Pi` converted to `float64`. -/
def pi : F64 :=
  ofRat false
    (314159265358979323846264338327950288419716939937510582097494459 / ((10 ^ 62 : ℕ) : ℚ))

end F64

/-- The nearest integer to an exact rational, halves away from zero. -/
def roundHalfAway (q : ℚ) : ℤ := if 0 ≤ q then ⌊q + 1 / 2⌋ else -⌊-q + 1 / 2⌋

/-! ## What the handler takes from outside the repository -/

/-- The functions of the Go standard library and the platform that `price.go` calls.
`Atoi` and `ParseFloat` return `none` when the Go function returns a non-nil error. -/
structure Runtime where
  Sin : F64 → F64
  Cos : F64 → F64
  Sqrt : F64 → F64
  Atan2 : F64 → F64 → F64
  floatToIntUndef : F64 → ℤ
  Atoi : String → Option ℤ
  ParseFloat : String → Option F64

deriving instance DecidableEq for Except

/-! ## Records of `internal/homeapi/types.go` -/

/-- `homeapi.DistanceRange`: `Max` is exclusive; `Max = 0` means that delivery is
not available from `Min` onward. -/
structure DistanceRange where
  Min : ℤ
  Max : ℤ
  A : ℤ
  B : ℤ
deriving DecidableEq

/-- The zero value `homeapi.DistanceRange{}`. -/
def DistanceRange.zero : DistanceRange := ⟨0, 0, 0, 0⟩

/-- `homeapi.StaticData`. -/
structure StaticData where
  Lat : F64
  Lon : F64
  OrderMinimumNoSurcharge : ℤ

/-- The zero value `homeapi.StaticData{}`. -/
def StaticData.zero : StaticData := ⟨F64.fin false 0, F64.fin false 0, 0⟩

/-- `homeapi.DynamicData`. -/
structure DynamicData where
  BasePrice : ℤ
  DistanceRanges : List DistanceRange

/-- The zero value `homeapi.DynamicData{}`. -/
def DynamicData.zero : DynamicData := ⟨0, []⟩

/-- `homeapi.Client`: what `GetStatic` and `GetDynamic` return for a venue slug, an
error being any non-nil `error`. -/
structure Client where
  GetStatic : String → Except String StaticData
  GetDynamic : String → Except String DynamicData

/-! ## `selectRange` -/

/-- `selectRange(ranges, distance)`: the triple `(range, ok, blocked)`.
The `for _, r := range ranges` loop is the recursion on the list. -/
def selectRange : List DistanceRange → ℤ → DistanceRange × Bool × Bool
  | [], _ => (DistanceRange.zero, false, false)
  | r :: rest, distance =>
    if r.Max = 0 ∧ distance ≥ r.Min then
      (DistanceRange.zero, false, true)
    else if distance ≥ r.Min ∧ distance < r.Max then
      (r, true, false)
    else
      selectRange rest distance

/-! ## `haversineMeters` -/

/-- The closure `rad` of `haversineMeters`: `d * math.Pi / 180.0`. -/
def rad (d : F64) : F64 := (d.mul F64.pi).div (F64.ofInt 180)

/-- The value `a` of `haversineMeters`:
`Sin(dlat/2)*Sin(dlat/2) + Cos(rad(lat1))*Cos(rad(lat2))*Sin(dlon/2)*Sin(dlon/2)`. -/
def haversineA (rt : Runtime) (lat1 lon1 lat2 lon2 : F64) : F64 :=
  ((rt.Sin ((rad (lat2.sub lat1)).div (F64.ofInt 2))).mul
      (rt.Sin ((rad (lat2.sub lat1)).div (F64.ofInt 2)))).add
    ((((rt.Cos (rad lat1)).mul (rt.Cos (rad lat2))).mul
        (rt.Sin ((rad (lon2.sub lon1)).div (F64.ofInt 2)))).mul
      (rt.Sin ((rad (lon2.sub lon1)).div (F64.ofInt 2))))

/-- `haversineMeters(lat1, lon1, lat2, lon2)`: with `a` as above,
`c := 2 * Atan2(Sqrt(a), Sqrt(1-a))` and the result is `int(math.Round(R * c))`,
`R = 6371000.0`. -/
def haversineMeters (rt : Runtime) (lat1 lon1 lat2 lon2 : F64) : ℤ :=
  F64.toInt rt.floatToIntUndef
    (F64.round
      ((F64.ofInt 6371000).mul
        ((F64.ofInt 2).mul
          (rt.Atan2 (rt.Sqrt (haversineA rt lat1 lon1 lat2 lon2))
            (rt.Sqrt ((F64.ofInt 1).sub (haversineA rt lat1 lon1 lat2 lon2)))))))

/-! ## `PriceHandler` -/

/-- `deliveryPart`. -/
structure deliveryPart where
  Fee : ℤ
  Distance : ℤ
deriving DecidableEq

/-- `priceResponse`. -/
structure priceResponse where
  TotalPrice : ℤ
  SmallOrderSurcharge : ℤ
  CartValue : ℤ
  Delivery : deliveryPart
deriving DecidableEq

/-- `errorResponse`. -/
structure errorResponse where
  Error : String
deriving DecidableEq

/-- The value handed to `writeJSON`: a `priceResponse` or an `errorResponse`. -/
inductive Body where
  | price (p : priceResponse) : Body
  | error (e : errorResponse) : Body
deriving DecidableEq

/-- What the handler wrote to the `http.ResponseWriter`: the status code and
the JSON body. -/
structure Response where
  code : ℕ
  body : Body
deriving DecidableEq

/-- `writeJSON(w, code, v)`. -/
def writeJSON (code : ℕ) (v : Body) : Response := ⟨code, v⟩

/-- `writeError(w, code, msg)`. -/
def writeError (code : ℕ) (msg : String) : Response := writeJSON code (Body.error ⟨msg⟩)

/-- The four values `q.Get(...)` reads from the query string; `q.Get` returns the
empty string for a key that is absent. -/
structure Query where
  venue_slug : String
  cart_value : String
  user_lat : String
  user_lon : String

/-- A case of the `select` statement of `PriceHandler`. -/
inductive SelectCase where
  | static : SelectCase
  | dynamic : SelectCase
  | done : SelectCase
deriving DecidableEq

/-- The cases the two iterations of the `select` loop fire, in order. Each channel
carries one value, so neither receive fires twice; `ctx.Done()` may fire in either
iteration (the five-second deadline, or the cancellation of the request). -/
inductive Schedule where
  | staticThenDynamic : Schedule
  | dynamicThenStatic : Schedule
  | staticThenDone : Schedule
  | dynamicThenDone : Schedule
  | doneFirst : Schedule
deriving DecidableEq

/-- The cases of a schedule as a list. -/
def Schedule.fired : Schedule → List SelectCase
  | staticThenDynamic => [SelectCase.static, SelectCase.dynamic]
  | dynamicThenStatic => [SelectCase.dynamic, SelectCase.static]
  | staticThenDone => [SelectCase.static, SelectCase.done]
  | dynamicThenDone => [SelectCase.dynamic, SelectCase.done]
  | doneFirst => [SelectCase.done]

/-- Neither iteration of the loop fires `ctx.Done()`. -/
def Schedule.noDeadline : Schedule → Bool
  | staticThenDynamic => true
  | dynamicThenStatic => true
  | _ => false

/-- The response of the handler, and the number of calls its goroutines make to
`GetStatic` and to `GetDynamic`. -/
structure Outcome where
  response : Response
  staticCalls : ℕ
  dynamicCalls : ℕ
deriving DecidableEq

/-- Lines 34-58 of `price.go`: read the four query values, reject the request
unless all are non-empty, `cart_value` parses to an integer that is not negative,
and neither `user_lat < -90 || user_lat > 90` nor `user_lon < -180 || user_lon > 180`
holds. Returns `(cartValue, userLat, userLon)`. -/
def validate (rt : Runtime) (q : Query) : Except Response (ℤ × F64 × F64) :=
  if q.venue_slug = "" ∨ q.cart_value = "" ∨ q.user_lat = "" ∨ q.user_lon = "" then
    Except.error (writeError 400 "missing required query parameters")
  else
    match rt.Atoi q.cart_value with
    | none => Except.error (writeError 400 "cart_value must be a non-negative integer")
    | some cartValue =>
      if cartValue < 0 then
        Except.error (writeError 400 "cart_value must be a non-negative integer")
      else
        match rt.ParseFloat q.user_lat with
        | none => Except.error (writeError 400 "user_lat must be a valid latitude")
        | some userLat =>
          if userLat.lt (F64.ofInt (-90)) || userLat.gt (F64.ofInt 90) then
            Except.error (writeError 400 "user_lat must be a valid latitude")
          else
            match rt.ParseFloat q.user_lon with
            | none => Except.error (writeError 400 "user_lon must be a valid longitude")
            | some userLon =>
              if userLon.lt (F64.ofInt (-180)) || userLon.gt (F64.ofInt 180) then
                Except.error (writeError 400 "user_lon must be a valid longitude")
              else
                Except.ok (cartValue, userLat, userLon)

/-- Lines 78-98 of `price.go`: the loop `for i := 0; i < 2; i++ { select ... }`
over the cases the schedule fires. `sr` and `dr` are the values the two goroutines
send on `chStatic` and `chDynamic`; `sdata` and `ddata` start as zero values. -/
def receive (sr : Except String StaticData) (dr : Except String DynamicData) :
    List SelectCase → StaticData → DynamicData → Except Response (StaticData × DynamicData)
  | [], sdata, ddata => Except.ok (sdata, ddata)
  | SelectCase.static :: rest, _, ddata =>
    match sr with
    | Except.error _ => Except.error (writeError 400 "failed to fetch venue static info")
    | Except.ok s => receive sr dr rest s ddata
  | SelectCase.dynamic :: rest, sdata, _ =>
    match dr with
    | Except.error _ => Except.error (writeError 400 "failed to fetch venue dynamic info")
    | Except.ok d => receive sr dr rest sdata d
  | SelectCase.done :: _, _, _ => Except.error (writeError 504 "upstream timeout")

/-- Line 117 of `price.go`, the rounded distance component of the fee:
`int(math.Round(float64(rng.B)*float64(dist)/10.0))`. -/
def distanceFee (rt : Runtime) (b dist : ℤ) : ℤ :=
  F64.toInt rt.floatToIntUndef
    (F64.round (((F64.ofInt b).mul (F64.ofInt dist)).div (F64.ofInt 10)))

/-- Lines 100-125 of `price.go`: from the validated request and the two records,
the distance, the range, the surcharge, the fee and the total. -/
def respond (rt : Runtime) (cartValue : ℤ) (userLat userLon : F64)
    (sdata : StaticData) (ddata : DynamicData) : Response :=
  let dist := haversineMeters rt userLat userLon sdata.Lat sdata.Lon
  match selectRange ddata.DistanceRanges dist with
  | (rng, ok, blocked) =>
    if blocked || !ok then
      writeError 400 "delivery not available for this distance"
    else
      let surcharge := sub64 sdata.OrderMinimumNoSurcharge cartValue
      let surcharge := if surcharge < 0 then 0 else surcharge
      let fee := add64 (add64 ddata.BasePrice rng.A) (distanceFee rt rng.B dist)
      let total := add64 (add64 cartValue surcharge) fee
      writeJSON 200 (Body.price
        { TotalPrice := total, SmallOrderSurcharge := surcharge, CartValue := cartValue,
          Delivery := { Fee := fee, Distance := dist } })

/-- `PriceHandler(api)` serving one request. A request that fails validation
returns before the goroutines are started; otherwise each goroutine makes its one
call, and the loop receives their results in the order of the schedule. -/
def PriceHandler (rt : Runtime) (api : Client) (sched : Schedule) (q : Query) : Outcome :=
  match validate rt q with
  | Except.error resp => ⟨resp, 0, 0⟩
  | Except.ok (cartValue, userLat, userLon) =>
    match receive (api.GetStatic q.venue_slug) (api.GetDynamic q.venue_slug)
        sched.fired StaticData.zero DynamicData.zero with
    | Except.error resp => ⟨resp, 1, 1⟩
    | Except.ok (sdata, ddata) => ⟨respond rt cartValue userLat userLon sdata ddata, 1, 1⟩

/-! ## A concrete runtime

The theorems below hold for every `Runtime`. To run the handler on the requests of
`price_test.go` a concrete one is needed: `strconv.Atoi` on decimal literals,
`strconv.ParseFloat` on plain decimal literals and on `NaN` and `Inf`, and
truncated power series for the functions of package `math`. The series stand in
for Go's own algorithms: they agree with them on the special cases used below, and
are close to them for the small angles of the tests, but are not bit-identical. -/

/-- The number a list of decimal digits denotes; `none` when a character is not
a digit or the list is empty. -/
def digitsValue (cs : List Char) : Option ℕ :=
  if cs = [] then none
  else cs.foldl
    (fun acc c => acc.bind fun n => if c.isDigit then some (n * 10 + (c.toNat - 48)) else none)
    (some 0)

/-- `strconv.Atoi` on 64-bit `int`: an optional sign, then decimal digits only, and
a value within range. -/
def refAtoi (s : String) : Option ℤ :=
  match s.toList with
  | '-' :: ds => (digitsValue ds).bind fun n => if n ≤ 2 ^ 63 then some (-(n : ℤ)) else none
  | '+' :: ds => (digitsValue ds).bind fun n => if n < 2 ^ 63 then some (n : ℤ) else none
  | ds => (digitsValue ds).bind fun n => if n < 2 ^ 63 then some (n : ℤ) else none

/-- The magnitude of a decimal literal `digits` or `digits.digits`. -/
def decimalValue (cs : List Char) : Option ℚ :=
  match cs.span (fun c => c != '.') with
  | (ip, []) => (digitsValue ip).map fun n => (n : ℚ)
  | (ip, _ :: fp) =>
    (digitsValue ip).bind fun n => (digitsValue fp).map fun f =>
      (n : ℚ) + (f : ℚ) / ((10 ^ fp.length : ℕ) : ℚ)

/-- The float a signed decimal magnitude parses to: the nearest one, and an error
(`none`) when it overflows. -/
def parsedFloat (neg : Bool) (v : Option ℚ) : Option F64 :=
  v.bind fun m => if (F64.ofMag neg m).isFinite then some (F64.ofMag neg m) else none

/-- `strconv.ParseFloat(s, 64)` on the literals `NaN`, `Inf`, `+Inf`, `-Inf` and on
plain decimal literals with an optional sign (no exponent, no hexadecimal form). -/
def refParseFloat (s : String) : Option F64 :=
  if s = "NaN" then some F64.nan
  else if s = "Inf" ∨ s = "+Inf" then some (F64.inf false)
  else if s = "-Inf" then some (F64.inf true)
  else
    match s.toList with
    | '-' :: cs => parsedFloat true (decimalValue cs)
    | '+' :: cs => parsedFloat false (decimalValue cs)
    | cs => parsedFloat false (decimalValue cs)

/-- The alternating series `x^k/k! - x^(k+2)/(k+2)! + ...` with `n` terms. -/
def trigSeries (x : ℚ) : ℕ → ℕ → ℚ
  | 0, _ => 0
  | n + 1, k => x ^ k / (k.factorial : ℚ) - trigSeries x n (k + 2)

/-- The series `t - t^3/3 + t^5/5 - ...` with `n` terms, starting at exponent `k`. -/
def atanSeries (t : ℚ) : ℕ → ℕ → ℚ
  | 0, _ => 0
  | n + 1, k => t ^ k / (k : ℚ) - atanSeries t n (k + 2)

/-- Newton iteration `y ↦ (y + m / y) / 2` for the square root of `m`. -/
def newtonSqrt (m : ℚ) : ℕ → ℚ → ℚ
  | 0, y => y
  | n + 1, y => newtonSqrt m n ((y + m / y) / 2)

/-- Sine by its series; `Sin(±0) = ±0`, `Sin(±Inf) = NaN`, `Sin(NaN) = NaN`. -/
def refSin : F64 → F64
  | F64.fin s m => if m = 0 then F64.fin s 0 else F64.ofMag s (trigSeries m 9 1)
  | _ => F64.nan

/-- Cosine by its series; `Cos(±Inf) = NaN`, `Cos(NaN) = NaN`. -/
def refCos : F64 → F64
  | F64.fin _ m => F64.ofRat false (trigSeries m 9 0)
  | _ => F64.nan

/-- Square root by Newton iteration; `Sqrt(±0) = ±0`, `Sqrt(x < 0) = NaN`,
`Sqrt(+Inf) = +Inf`, `Sqrt(NaN) = NaN`. -/
def refSqrt : F64 → F64
  | F64.nan => F64.nan
  | F64.inf s => if s then F64.nan else F64.inf false
  | F64.fin s m =>
    if m = 0 then F64.fin s 0
    else if s then F64.nan
    else F64.ofMag false (newtonSqrt m 7 (pow2 ((ilog2 m + 1) / 2)))

/-- Arc tangent of `y/x` for `x > 0` by its series; `Atan2(±0, x) = ±0` there. The
other quadrants are not needed for a distance and are left as `NaN`. -/
def refAtan2 : F64 → F64 → F64
  | F64.fin s m, F64.fin false n =>
    if n = 0 then F64.nan
    else if m = 0 then F64.fin s 0
    else F64.ofMag s (atanSeries (m / n) 6 1)
  | _, _ => F64.nan

/-- The concrete runtime; `int(x)` of a `NaN`, an infinity or an out-of-range `x` is
the least `int`, as on amd64. -/
def refRuntime : Runtime where
  Sin := refSin
  Cos := refCos
  Sqrt := refSqrt
  Atan2 := refAtan2
  floatToIntUndef := fun _ => -(2 ^ 63)
  Atoi := refAtoi
  ParseFloat := refParseFloat

/-- The client of `TestPriceHandler_OK`. -/
def okClient : Client where
  GetStatic := fun _ => Except.ok ⟨F64.fin false 0, F64.fin false 0, 1000⟩
  GetDynamic := fun _ =>
    Except.ok ⟨199, [⟨0, 500, 0, 0⟩, ⟨500, 2000, 100, 1⟩, ⟨2000, 0, 0, 0⟩]⟩

/-- The request of `TestPriceHandler_OK`. -/
def okQuery : Query := ⟨"v", "1000", "0", "0.005"⟩

/-- The client of `TestPriceHandler_Blocked`. -/
def blockedClient : Client where
  GetStatic := fun _ => Except.ok ⟨F64.fin false 0, F64.fin false 0, 0⟩
  GetDynamic := fun _ => Except.ok ⟨0, [⟨0, 1000, 0, 0⟩, ⟨1000, 0, 0, 0⟩]⟩

/-- The request of `TestPriceHandler_Blocked`. -/
def blockedQuery : Query := ⟨"v", "0", "0", "0.01"⟩

/-! ## The range selector as the specification words it -/

/-- The cutoff rule of the specification: `max == 0` and `distance >= min`. -/
def cutoffRule (d : ℤ) (r : DistanceRange) : Prop := r.Max = 0 ∧ d ≥ r.Min

/-- The interval rule of the specification: `min <= distance < max`. -/
def intervalRule (d : ℤ) (r : DistanceRange) : Prop := r.Min ≤ d ∧ d < r.Max

instance decidableCutoffRule (d : ℤ) (r : DistanceRange) : Decidable (cutoffRule d r) :=
  inferInstanceAs (Decidable (r.Max = 0 ∧ d ≥ r.Min))

instance decidableIntervalRule (d : ℤ) (r : DistanceRange) :
    Decidable (intervalRule d r) :=
  inferInstanceAs (Decidable (r.Min ≤ d ∧ d < r.Max))

/-- The outcome the specification describes: look up the first range that satisfies
the cutoff rule or the interval rule, and decide on that range alone. -/
def selectRangeSpec (ranges : List DistanceRange) (d : ℤ) : DistanceRange × Bool × Bool :=
  match ranges.find? (fun r => decide (cutoffRule d r ∨ intervalRule d r)) with
  | none => (DistanceRange.zero, false, false)
  | some r => if cutoffRule d r then (DistanceRange.zero, false, true) else (r, true, false)

/-! ## The fixtures of `price_test.go`, and three more -/

/-- The ranges of `TestSelectRange`. -/
def testRanges : List DistanceRange :=
  [⟨0, 500, 0, 0⟩, ⟨500, 1000, 100, 1⟩, ⟨1000, 0, 0, 0⟩]

/-- The price record of `TestPriceHandler_OK` in this model. -/
def okPrice : priceResponse := ⟨1355, 0, 1000, ⟨355, 556⟩⟩

/-- A client whose static lookup fails. -/
def staticDownClient : Client where
  GetStatic := fun _ => Except.error "static endpoint 500"
  GetDynamic := okClient.GetDynamic

/-- A client whose venue has the least `int` as surcharge threshold and delivers
without a fee up to 500 m. -/
def minThresholdClient : Client where
  GetStatic := fun _ => Except.ok ⟨F64.fin false 0, F64.fin false 0, -(2 ^ 63)⟩
  GetDynamic := fun _ => Except.ok ⟨0, [⟨0, 500, 0, 0⟩]⟩

/-- The concrete runtime on a platform where `int(x)` of a `NaN` is 0, as on arm64. -/
def zeroNaNRuntime : Runtime where
  Sin := refSin
  Cos := refCos
  Sqrt := refSqrt
  Atan2 := refAtan2
  floatToIntUndef := fun _ => 0
  Atoi := refAtoi
  ParseFloat := refParseFloat

/-- A client whose venue has the base price `2^63 - 1024` and a range that adds 1024
up to 500 m; both are values a JSON number converts to exactly. -/
def maxBaseClient : Client where
  GetStatic := fun _ => Except.ok ⟨F64.fin false 0, F64.fin false 0, 1000⟩
  GetDynamic := fun _ => Except.ok ⟨9223372036854774784, [⟨0, 500, 1024, 0⟩]⟩

/-! ## Theorems -/

theorem pow2_eq_zpow (e : ℤ) : pow2 e = (2 : ℚ) ^ e := by
  unfold pow2
  split_ifs with h
  · obtain ⟨n, rfl⟩ := Int.eq_ofNat_of_zero_le h
    simp
  · obtain ⟨n, hn⟩ : ∃ n : ℕ, e = -(n : ℤ) := ⟨(-e).toNat, by omega⟩
    subst hn
    simp

theorem pow2_pos (e : ℤ) : 0 < pow2 e := by
  rw [pow2_eq_zpow]; exact zpow_pos (by norm_num) e

theorem log2Fuel_bounds (fuel n : ℕ) (h1 : 1 ≤ n) (h2 : n ≤ fuel) :
    2 ^ log2Fuel fuel n ≤ n ∧ n < 2 ^ (log2Fuel fuel n + 1) := by
  induction fuel generalizing n with
  | zero => omega
  | succ fuel ih =>
    unfold log2Fuel
    split_ifs with h
    · constructor <;> simp <;> omega
    · have hdiv1 : 1 ≤ n / 2 := by omega
      have hdiv2 : n / 2 ≤ fuel := by omega
      obtain ⟨ha, hb⟩ := ih (n / 2) hdiv1 hdiv2
      constructor
      · rw [pow_succ]; omega
      · rw [pow_succ]; omega

theorem natLog2_le (n : ℕ) (h : 1 ≤ n) : 2 ^ natLog2 n ≤ n :=
  (log2Fuel_bounds n n h le_rfl).1

theorem natLog2_lt (n : ℕ) (h : 1 ≤ n) : n < 2 ^ (natLog2 n + 1) :=
  (log2Fuel_bounds n n h le_rfl).2

theorem rat_eq_natAbs_div (q : ℚ) (hq : 0 < q) :
    q = (q.num.natAbs : ℚ) / (q.den : ℚ) := by
  have hnum : (q.num.natAbs : ℤ) = q.num := Int.natAbs_of_nonneg (Rat.num_nonneg.mpr hq.le)
  have h : ((q.num.natAbs : ℕ) : ℚ) = (q.num : ℚ) := by
    rw [← Int.cast_natCast, hnum]
  rw [h]; exact (Rat.num_div_den q).symm

/-- The binary exponent is a lower bound: `2 ^ ilog2 q ≤ q`. -/
theorem pow2_ilog2_le (q : ℚ) (hq : 0 < q) : pow2 (ilog2 q) ≤ q := by
  unfold ilog2
  split_ifs with h
  · have hn : 1 ≤ q.num.natAbs := by
      have : 0 < q.num := Rat.num_pos.mpr hq
      omega
    have h1 := natLog2_le _ hn
    have h2 := natLog2_lt q.den q.den_pos
    rw [pow2_eq_zpow]
    have hq' := rat_eq_natAbs_div q hq
    have hden : (0 : ℚ) < q.den := by exact_mod_cast q.den_pos
    have e1 : ((natLog2 q.num.natAbs : ℤ) - (natLog2 q.den : ℤ) - 1)
        = (natLog2 q.num.natAbs : ℤ) - ((natLog2 q.den + 1 : ℕ) : ℤ) := by push_cast; ring
    rw [e1, zpow_sub₀ (by norm_num), zpow_natCast, zpow_natCast]
    conv_rhs => rw [hq']
    have h1' : ((2 : ℚ) ^ natLog2 q.num.natAbs) ≤ (q.num.natAbs : ℚ) := by exact_mod_cast h1
    have h2' : (q.den : ℚ) ≤ (2 : ℚ) ^ (natLog2 q.den + 1) := by exact_mod_cast h2.le
    exact div_le_div₀ (by positivity) h1' hden h2'
  · exact not_lt.mp h

/-- The binary exponent is tight: `q < 2 ^ (ilog2 q + 1)`. -/
theorem lt_pow2_ilog2_succ (q : ℚ) (hq : 0 < q) : q < pow2 (ilog2 q + 1) := by
  unfold ilog2
  split_ifs with h
  · simpa using h
  · have hn : 1 ≤ q.num.natAbs := by
      have : 0 < q.num := Rat.num_pos.mpr hq
      omega
    have h1 := natLog2_lt _ hn
    have h2 := natLog2_le q.den q.den_pos
    rw [pow2_eq_zpow]
    have hq' := rat_eq_natAbs_div q hq
    have hden : (0 : ℚ) < q.den := by exact_mod_cast q.den_pos
    have e1 : ((natLog2 q.num.natAbs : ℤ) - (natLog2 q.den : ℤ) + 1)
        = ((natLog2 q.num.natAbs + 1 : ℕ) : ℤ) - (natLog2 q.den : ℤ) := by push_cast; ring
    rw [e1, zpow_sub₀ (by norm_num), zpow_natCast, zpow_natCast]
    conv_lhs => rw [hq']
    have h1' : (q.num.natAbs : ℚ) < ((2 : ℚ) ^ (natLog2 q.num.natAbs + 1)) := by exact_mod_cast h1
    have h2' : (2 : ℚ) ^ natLog2 q.den ≤ (q.den : ℚ) := by exact_mod_cast h2
    exact div_lt_div₀ h1' h2' (by positivity) (by positivity)

theorem roundHalfEven_natCast (n : ℕ) : roundHalfEven (n : ℚ) = n := by
  unfold roundHalfEven
  simp

theorem roundHalfEven_error (q : ℚ) (hq : 0 ≤ q) : |(roundHalfEven q : ℚ) - q| ≤ 1 / 2 := by
  unfold roundHalfEven
  have h1 : (⌊q⌋₊ : ℚ) ≤ q := Nat.floor_le hq
  have h2 : q < (⌊q⌋₊ : ℚ) + 1 := Nat.lt_floor_add_one q
  split_ifs with ha hb hc
  · rw [abs_le]; constructor <;> linarith
  · rw [abs_le]; push_cast; constructor <;> linarith
  · rw [abs_le]; push_neg at ha hb; constructor <;> linarith
  · rw [abs_le]; push_neg at ha hb; push_cast; constructor <;> linarith

theorem ulpExp_le (q : ℚ) (k : ℤ) (hq : 0 < q) (hk : q < 2 ^ k) (hk1 : -1021 ≤ k) :
    ulpExp q ≤ k - 53 := by
  unfold ulpExp
  have h1 : (2 : ℚ) ^ ilog2 q ≤ q := by rw [← pow2_eq_zpow]; exact pow2_ilog2_le q hq
  have h2 : (2 : ℚ) ^ ilog2 q < 2 ^ k := lt_of_le_of_lt h1 hk
  have h3 : ilog2 q < k := (zpow_lt_zpow_iff_right₀ (by norm_num : (1 : ℚ) < 2)).mp h2
  have : max (ilog2 q) (-1022) ≤ k - 1 := max_le (by omega) (by omega)
  omega

theorem roundMag_zero : roundMag 0 = 0 := by
  unfold roundMag
  simp [roundHalfEven]

theorem roundMag_nonneg (q : ℚ) : 0 ≤ roundMag q := by
  unfold roundMag
  exact mul_nonneg (Nat.cast_nonneg _) (pow2_pos _).le

theorem roundMag_error (q : ℚ) (k : ℤ) (hq : 0 < q) (hk : q < 2 ^ k) (hk1 : -1021 ≤ k) :
    |roundMag q - q| ≤ 2 ^ (k - 54) := by
  have he := ulpExp_le q k hq hk hk1
  unfold roundMag
  rw [pow2_eq_zpow]
  set e := ulpExp q with he_def
  have hpos : (0 : ℚ) < 2 ^ e := zpow_pos (by norm_num) e
  have hx : 0 ≤ q / 2 ^ e := div_nonneg hq.le hpos.le
  have herr := roundHalfEven_error (q / 2 ^ e) hx
  have hrew : (roundHalfEven (q / 2 ^ e) : ℚ) * 2 ^ e - q
      = ((roundHalfEven (q / 2 ^ e) : ℚ) - q / 2 ^ e) * 2 ^ e := by
    field_simp
  rw [hrew, abs_mul, abs_of_pos hpos]
  have h54 : (2 : ℚ) ^ (k - 54) = 1 / 2 * 2 ^ (k - 53) := by
    rw [show k - 53 = (k - 54) + 1 by ring, zpow_add₀ (by norm_num), zpow_one]; ring
  rw [h54]
  have hmono : (2 : ℚ) ^ e ≤ 2 ^ (k - 53) := zpow_le_zpow_right₀ (by norm_num) he
  calc |(roundHalfEven (q / 2 ^ e) : ℚ) - q / 2 ^ e| * 2 ^ e ≤ 1 / 2 * 2 ^ e :=
        mul_le_mul_of_nonneg_right herr hpos.le
    _ ≤ 1 / 2 * 2 ^ (k - 53) := by
        apply mul_le_mul_of_nonneg_left hmono; norm_num

/-- A dyadic rational `a / 2^j` with at most 53 significant bits is representable. -/
theorem roundMag_exact (a j : ℕ) (ha : a < 2 ^ 53) (hj : j ≤ 1074) :
    roundMag ((a : ℚ) / 2 ^ j) = (a : ℚ) / 2 ^ j := by
  rcases Nat.eq_zero_or_pos a with h0 | hpos
  · subst h0; simp [roundMag_zero]
  have hq : (0 : ℚ) < (a : ℚ) / 2 ^ j := by positivity
  have hlt : (a : ℚ) / 2 ^ j < 2 ^ ((53 : ℤ) - j) := by
    rw [zpow_sub₀ (by norm_num), zpow_natCast]
    apply div_lt_div_of_pos_right _ (by positivity)
    exact_mod_cast ha
  have he := ulpExp_le _ ((53 : ℤ) - j) hq hlt (by omega)
  unfold roundMag
  rw [pow2_eq_zpow]
  set e := ulpExp ((a : ℚ) / 2 ^ j) with he_def
  obtain ⟨t, ht⟩ : ∃ t : ℕ, (t : ℤ) = -j - e := ⟨(-j - e).toNat, by omega⟩
  have hx : (a : ℚ) / 2 ^ j / 2 ^ e = ((a * 2 ^ t : ℕ) : ℚ) := by
    have : e = -(j : ℤ) - t := by omega
    rw [this, zpow_sub₀ (by norm_num), zpow_neg, zpow_natCast, zpow_natCast]
    push_cast
    field_simp
    ring
  rw [hx, roundHalfEven_natCast, ← hx]
  have hpos2 : (0 : ℚ) < 2 ^ e := zpow_pos (by norm_num) e
  field_simp
  ring

theorem maxFloat_ge : (2 : ℚ) ^ (65 : ℤ) ≤ maxFloat := by
  have h : ((2 ^ 65 : ℕ) : ℚ) ≤ maxFloat := by decide!
  have e : (2 : ℚ) ^ (65 : ℤ) = ((2 ^ 65 : ℕ) : ℚ) := by norm_num
  rw [e]; exact h

/-- Rounding a magnitude below `2^64` does not overflow. -/
theorem roundMag_le_maxFloat (q : ℚ) (h0 : 0 ≤ q) (h : q < 2 ^ (64 : ℤ)) :
    roundMag q ≤ maxFloat := by
  rcases h0.eq_or_lt with h0 | hpos
  · rw [← h0, roundMag_zero]; exact le_trans (by positivity) maxFloat_ge
  · have herr := roundMag_error q 64 hpos h (by norm_num)
    have h1 : roundMag q - q ≤ 2 ^ ((64 : ℤ) - 54) := (abs_le.mp herr).2
    have h2 : (2 : ℚ) ^ ((64 : ℤ) - 54) ≤ 2 ^ (64 : ℤ) :=
      zpow_le_zpow_right₀ (by norm_num) (by norm_num)
    have h3 : (2 : ℚ) ^ (65 : ℤ) = 2 * 2 ^ (64 : ℤ) := by norm_num
    have := maxFloat_ge
    linarith

theorem F64.ofMag_of_le (s : Bool) (q : ℚ) (h : roundMag q ≤ maxFloat) :
    F64.ofMag s q = F64.fin s (roundMag q) := by
  unfold F64.ofMag; rw [if_pos h]

/-- A natural number below `2^53` is a float. -/
theorem F64.ofMag_natCast (s : Bool) (a : ℕ) (ha : a < 2 ^ 53) :
    F64.ofMag s (a : ℚ) = F64.fin s (a : ℚ) := by
  have hex : roundMag (a : ℚ) = (a : ℚ) := by
    have := roundMag_exact a 0 ha (by norm_num)
    simpa using this
  have hlt : (a : ℚ) < 2 ^ (64 : ℤ) := by
    have h1 : (a : ℚ) < ((2 ^ 53 : ℕ) : ℚ) := by exact_mod_cast ha
    have h2 : ((2 ^ 53 : ℕ) : ℚ) ≤ 2 ^ (64 : ℤ) := by norm_num
    linarith
  have := roundMag_le_maxFloat (a : ℚ) (Nat.cast_nonneg a) hlt
  rw [F64.ofMag_of_le s _ this, hex]

/-- The conversion `float64(n)` of a 64-bit integer is a finite float. -/
theorem F64.ofInt_finite (n : ℤ) (hn : IsInt64 n) :
    F64.ofInt n = F64.fin (decide ((n : ℚ) < 0)) (roundMag |(n : ℚ)|) ∨
      F64.ofInt n = F64.fin false 0 := by
  unfold F64.ofInt F64.ofRat
  split_ifs with h0
  · right; rfl
  · left
    apply F64.ofMag_of_le
    apply roundMag_le_maxFloat _ (abs_nonneg _)
    obtain ⟨h1, h2⟩ := hn
    have h1' : (-(2 ^ 63) : ℚ) ≤ (n : ℚ) := by exact_mod_cast h1
    have h2' : (n : ℚ) < (2 ^ 63 : ℚ) := by exact_mod_cast h2
    have e : (2 : ℚ) ^ (64 : ℤ) = 2 * 2 ^ 63 := by norm_num
    rw [e, abs_lt]
    constructor <;> linarith

/-- The conversion `float64(n)` is exact when `|n| < 2^53`. -/
theorem F64.ofInt_exact (n : ℤ) (hn : n.natAbs < 2 ^ 53) (h0 : n ≠ 0) :
    F64.ofInt n = F64.fin (decide (n < 0)) (n.natAbs : ℚ) := by
  unfold F64.ofInt F64.ofRat
  have h0' : (n : ℚ) ≠ 0 := by exact_mod_cast h0
  rw [if_neg h0']
  have habs : |(n : ℚ)| = (n.natAbs : ℚ) := by
    rw [Nat.cast_natAbs, Int.cast_abs]
  rw [habs, F64.ofMag_natCast _ _ hn]
  congr 1
  simp

theorem F64.ofInt_ten : F64.ofInt 10 = F64.fin false 10 := by decide!

/-- The float quotient of a natural number below `2^53` by ten rounds, with halves
away from zero, to the integer the exact quotient rounds to. -/
theorem floor_roundMag_div10 (N : ℕ) (hN : N < 2 ^ 53) :
    ⌊roundMag ((N : ℚ) / 10) + 1 / 2⌋₊ = (N + 5) / 10 := by
  have hdm := Nat.div_add_mod N 10
  have hj : N % 10 < 10 := Nat.mod_lt _ (by norm_num)
  set k := N / 10 with hk
  set j := N % 10 with hj'
  have hNq : (N : ℚ) = 10 * k + j := by exact_mod_cast hdm.symm
  have hnn : 0 ≤ roundMag ((N : ℚ) / 10) + 1 / 2 := by
    have := roundMag_nonneg ((N : ℚ) / 10); linarith
  rw [Nat.floor_eq_iff hnn]
  by_cases h5 : j = 5
  · -- a tie: the quotient is a half-integer, hence a float
    have hq : (N : ℚ) / 10 = ((2 * k + 1 : ℕ) : ℚ) / 2 ^ 1 := by
      rw [hNq, h5]; push_cast; ring
    have hex := roundMag_exact (2 * k + 1) 1 (by omega) (by norm_num)
    rw [hq, hex]
    have : (N + 5) / 10 = k + 1 := by omega
    rw [this]; push_cast
    constructor <;> linarith
  by_cases h0 : j = 0
  · have hq : (N : ℚ) / 10 = ((k : ℕ) : ℚ) / 2 ^ 0 := by
      rw [hNq, h0]; push_cast; ring
    have hex := roundMag_exact k 0 (by omega) (by norm_num)
    rw [hq, hex]
    have : (N + 5) / 10 = k := by omega
    rw [this]
    constructor <;> linarith
  · have hpos : (0 : ℚ) < (N : ℚ) / 10 := by
      have : 0 < N := by omega
      positivity
    have hlt : (N : ℚ) / 10 < 2 ^ (50 : ℤ) := by
      have h1 : (N : ℚ) < ((2 ^ 53 : ℕ) : ℚ) := by exact_mod_cast hN
      have h2 : ((2 ^ 53 : ℕ) : ℚ) = 8 * 2 ^ (50 : ℤ) := by norm_num
      have h3 : (0 : ℚ) < 2 ^ (50 : ℤ) := by positivity
      linarith
    have herr := roundMag_error _ 50 hpos hlt (by norm_num)
    have h16 : (2 : ℚ) ^ ((50 : ℤ) - 54) = 1 / 16 := by norm_num
    rw [h16, abs_le] at herr
    obtain ⟨hlo, hhi⟩ := herr
    have hjq : (j : ℚ) < 10 := by exact_mod_cast hj
    by_cases hlow : j < 5
    · have : (N + 5) / 10 = k := by omega
      rw [this]
      have hj1 : (1 : ℚ) ≤ j := by
        have : 1 ≤ j := by omega
        exact_mod_cast this
      have hj4 : (j : ℚ) ≤ 4 := by
        have : j ≤ 4 := by omega
        exact_mod_cast this
      constructor <;> linarith
    · have : (N + 5) / 10 = k + 1 := by omega
      rw [this]; push_cast
      have hj6 : (6 : ℚ) ≤ j := by
        have : 6 ≤ j := by omega
        exact_mod_cast this
      constructor <;> linarith

/-- Rounding an exact tenth, halves away from zero, in terms of integer division. -/
theorem roundHalfAway_div10 (z : ℤ) :
    roundHalfAway ((z : ℚ) / 10) =
      if 0 ≤ z then (((z.natAbs + 5) / 10 : ℕ) : ℤ) else -(((z.natAbs + 5) / 10 : ℕ) : ℤ) := by
  have key : ∀ N : ℕ, ⌊(N : ℚ) / 10 + 1 / 2⌋ = (((N + 5) / 10 : ℕ) : ℤ) := by
    intro N
    rw [Int.floor_eq_iff]
    have hdm := Nat.div_add_mod (N + 5) 10
    have hj : (N + 5) % 10 < 10 := Nat.mod_lt _ (by norm_num)
    have hq : ((N : ℚ) + 5) = 10 * ((N + 5) / 10 : ℕ) + ((N + 5) % 10 : ℕ) := by
      exact_mod_cast hdm.symm
    have hj0 : (0 : ℚ) ≤ ((N + 5) % 10 : ℕ) := Nat.cast_nonneg _
    have hj10 : (((N + 5) % 10 : ℕ) : ℚ) < 10 := by exact_mod_cast hj
    rw [Int.cast_natCast]
    constructor <;> linarith
  unfold roundHalfAway
  by_cases hz : 0 ≤ z
  · have hq : (0 : ℚ) ≤ (z : ℚ) / 10 := by
      have : (0 : ℚ) ≤ z := by exact_mod_cast hz
      positivity
    rw [if_pos hq, if_pos hz]
    have : (z : ℚ) = (z.natAbs : ℚ) := by
      rw [Nat.cast_natAbs, abs_of_nonneg hz]
    rw [this, key]
  · have hz' : z < 0 := not_le.mp hz
    have hq : ¬ (0 : ℚ) ≤ (z : ℚ) / 10 := by
      have : (z : ℚ) < 0 := by exact_mod_cast hz'
      rw [not_le]
      linarith
    rw [if_neg hq, if_neg hz]
    have : -((z : ℚ) / 10) = (z.natAbs : ℚ) / 10 := by
      rw [Nat.cast_natAbs, abs_of_neg hz']; push_cast; ring
    rw [this, key]

theorem F64.mul_fin_fin (s t : Bool) (m n : ℚ) :
    (F64.fin s m).mul (F64.fin t n) = F64.ofMag (xor s t) (m * n) := rfl

theorem F64.div_fin_fin (s t : Bool) (m n : ℚ) (hn : n ≠ 0) :
    (F64.fin s m).div (F64.fin t n) = F64.ofMag (xor s t) (m / n) := by
  show (if n = 0 then (if m = 0 then F64.nan else F64.inf (xor s t))
    else F64.ofMag (xor s t) (m / n)) = _
  rw [if_neg hn]

theorem F64.ofMag_zero (s : Bool) : F64.ofMag s 0 = F64.fin s 0 := by
  have h : roundMag 0 ≤ maxFloat := by
    rw [roundMag_zero]; exact le_trans (by positivity) maxFloat_ge
  rw [F64.ofMag_of_le s 0 h, roundMag_zero]

theorem F64.toInt_round_natCast (undef : F64 → ℤ) (s : Bool) (r : ℚ) (K : ℕ)
    (hK : ⌊r + 1 / 2⌋₊ = K) (hlt : K < 2 ^ 63) :
    F64.toInt undef (F64.round (F64.fin s r)) = if s then -(K : ℤ) else (K : ℤ) := by
  unfold F64.round F64.toInt F64.truncate
  simp only [hK, Nat.floor_natCast]
  have hK' : (K : ℤ) < 2 ^ 63 := by exact_mod_cast hlt
  have h0 : (0 : ℤ) ≤ K := Int.natCast_nonneg K
  have hr : IsInt64 (if s then -(K : ℤ) else (K : ℤ)) := by
    unfold IsInt64
    cases s <;> simp <;> omega
  rw [if_pos hr]

/-- When one factor is zero the distance component of the fee is zero. -/
theorem distanceFee_of_zero (undef : F64 → ℤ) (s t : Bool) (m n : ℚ) (h : m = 0 ∨ n = 0) :
    F64.toInt undef
      (F64.round (((F64.fin s m).mul (F64.fin t n)).div (F64.ofInt 10))) = 0 := by
  have hmn : m * n = 0 := by rcases h with h | h <;> simp [h]
  have h1 : (F64.fin s m).mul (F64.fin t n) = F64.fin (xor s t) 0 := by
    rw [F64.mul_fin_fin, hmn, F64.ofMag_zero]
  have h2 : (F64.fin (xor s t) 0).div (F64.ofInt 10) = F64.fin (xor s t) 0 := by
    rw [F64.ofInt_ten, F64.div_fin_fin _ _ _ _ (by norm_num), zero_div, F64.ofMag_zero]
    simp
  rw [h1, h2, F64.toInt_round_natCast undef _ 0 0 (by norm_num) (by norm_num)]
  simp

/-- Line 117 of `price.go` computes the exact rounding: when `|b * d| < 2^53`, the
value `int(math.Round(float64(b)*float64(d)/10.0))` is the exact quotient
`b * d / 10` rounded to the nearest integer, halves away from zero. -/
theorem distanceFee_exact (rt : Runtime) (b d : ℤ) (hb : IsInt64 b) (hd : IsInt64 d)
    (h : |b * d| < 2 ^ 53) :
    distanceFee rt b d = roundHalfAway (((b * d : ℤ) : ℚ) / 10) := by
  rw [roundHalfAway_div10]
  unfold distanceFee
  by_cases hb0 : b = 0
  · subst hb0
    have hz : F64.ofInt 0 = F64.fin false 0 := by unfold F64.ofInt F64.ofRat; simp
    rw [hz]
    rcases F64.ofInt_finite d hd with h1 | h1 <;> rw [h1] <;>
      rw [distanceFee_of_zero _ _ _ _ _ (Or.inl rfl)] <;> simp
  by_cases hd0 : d = 0
  · subst hd0
    have hz : F64.ofInt 0 = F64.fin false 0 := by unfold F64.ofInt F64.ofRat; simp
    rw [hz]
    rcases F64.ofInt_finite b hb with h1 | h1 <;> rw [h1] <;>
      rw [distanceFee_of_zero _ _ _ _ _ (Or.inr rfl)] <;> simp
  -- both factors are non-zero, so each is below 2^53 in magnitude
  have hN : (b * d).natAbs < 2 ^ 53 := by
    have : ((b * d).natAbs : ℤ) < 2 ^ 53 := by rw [Int.natCast_natAbs]; exact h
    exact_mod_cast this
  have hmul : (b * d).natAbs = b.natAbs * d.natAbs := Int.natAbs_mul b d
  have hb1 : 1 ≤ b.natAbs := Int.natAbs_pos.mpr hb0
  have hd1 : 1 ≤ d.natAbs := Int.natAbs_pos.mpr hd0
  have hbN : b.natAbs < 2 ^ 53 := by
    calc b.natAbs = b.natAbs * 1 := (mul_one _).symm
      _ ≤ b.natAbs * d.natAbs := Nat.mul_le_mul_left _ hd1
      _ < 2 ^ 53 := by rw [← hmul]; exact hN
  have hdN : d.natAbs < 2 ^ 53 := by
    calc d.natAbs = 1 * d.natAbs := (one_mul _).symm
      _ ≤ b.natAbs * d.natAbs := Nat.mul_le_mul_right _ hb1
      _ < 2 ^ 53 := by rw [← hmul]; exact hN
  rw [F64.ofInt_exact b hbN hb0, F64.ofInt_exact d hdN hd0, F64.ofInt_ten]
  have h1 : (F64.fin (decide (b < 0)) (b.natAbs : ℚ)).mul (F64.fin (decide (d < 0)) (d.natAbs : ℚ))
      = F64.fin (xor (decide (b < 0)) (decide (d < 0))) (((b * d).natAbs : ℕ) : ℚ) := by
    rw [F64.mul_fin_fin, ← Nat.cast_mul, ← hmul, F64.ofMag_natCast _ _ hN]
  rw [h1]
  have hq0 : (0 : ℚ) ≤ ((b * d).natAbs : ℚ) / 10 := by positivity
  have hq64 : ((b * d).natAbs : ℚ) / 10 < 2 ^ (64 : ℤ) := by
    have h1 : (((b * d).natAbs : ℕ) : ℚ) < ((2 ^ 53 : ℕ) : ℚ) := by exact_mod_cast hN
    have h2 : ((2 ^ 53 : ℕ) : ℚ) ≤ 2 ^ (64 : ℤ) := by norm_num
    have h3 : (0 : ℚ) ≤ ((b * d).natAbs : ℚ) := Nat.cast_nonneg _
    linarith
  have h2 : (F64.fin (xor (decide (b < 0)) (decide (d < 0))) (((b * d).natAbs : ℕ) : ℚ)).div
        (F64.fin false 10)
      = F64.fin (xor (decide (b < 0)) (decide (d < 0))) (roundMag (((b * d).natAbs : ℚ) / 10)) := by
    rw [F64.div_fin_fin _ _ _ _ (by norm_num),
      F64.ofMag_of_le _ _ (roundMag_le_maxFloat _ hq0 hq64)]
    simp
  rw [h2, F64.toInt_round_natCast rt.floatToIntUndef _ _ (((b * d).natAbs + 5) / 10)
    (floor_roundMag_div10 _ hN) (by omega)]
  -- the sign of the float product is the sign of the integer product
  rcases lt_or_gt_of_ne hb0 with hbs | hbs <;> rcases lt_or_gt_of_ne hd0 with hds | hds
  · have : 0 ≤ b * d := (mul_pos_of_neg_of_neg hbs hds).le
    simp [hbs, hds, this]
  · have : ¬ 0 ≤ b * d := not_le.mpr (mul_neg_of_neg_of_pos hbs hds)
    have hd' : ¬ d < 0 := not_lt.mpr hds.le
    simp [hbs, hd', this]
  · have : ¬ 0 ≤ b * d := not_le.mpr (mul_neg_of_pos_of_neg hbs hds)
    have hb' : ¬ b < 0 := not_lt.mpr hbs.le
    simp [hb', hds, this]
  · have : 0 ≤ b * d := (mul_pos hbs hds).le
    have hb' : ¬ b < 0 := not_lt.mpr hbs.le
    have hd' : ¬ d < 0 := not_lt.mpr hds.le
    simp [hb', hd', this]

/-- The model on known values of binary64: `0.1` is `0x3FB999999999999A`, `math.Pi` is
`0x400921FB54442D18`, the largest finite number is a fixed point, a tie at the top of
the range overflows, the subnormal spacing is `2^-1074` with ties to even, and
`1 - 1` is `+0` while `-0 + -0` is `-0`. -/
theorem binary64_checks :
    F64.div (F64.ofInt 1) (F64.ofInt 10)
      = F64.fin false (3602879701896397 / ((2 ^ 55 : ℕ) : ℚ)) ∧
    F64.pi = F64.fin false (884279719003555 / ((2 ^ 48 : ℕ) : ℚ)) ∧
    F64.ofMag false maxFloat = F64.fin false maxFloat ∧
    F64.ofMag true (maxFloat + pow2 970) = F64.inf true ∧
    F64.ofMag false (3 * pow2 (-1075)) = F64.fin false (2 * pow2 (-1074)) ∧
    F64.ofMag false (pow2 (-1075)) = F64.fin false 0 ∧
    F64.sub (F64.ofInt 1) (F64.ofInt 1) = F64.fin false 0 ∧
    F64.add (F64.fin true 0) (F64.fin true 0) = F64.fin true 0 ∧
    F64.round (F64.fin true (5 / 2)) = F64.fin true 3 ∧
    F64.lt F64.nan (F64.ofInt 90) = false ∧ F64.gt F64.nan (F64.ofInt 90) = false := by
  refine ⟨?_, ?_, ?_, ?_, ?_, ?_, ?_, ?_, ?_, ?_, ?_⟩ <;> decide!

/-- The concrete runtime on the inputs of `price_test.go`: the distance from
`(0, 0)` to `(0, 1)` is 111195 m, within the bounds the test asserts. -/
theorem refRuntime_checks :
    haversineMeters refRuntime (F64.ofInt 0) (F64.ofInt 0) (F64.ofInt 0) (F64.ofInt 1) = 111195 ∧
    refAtoi "1000" = some 1000 ∧ refAtoi "-5" = some (-5) ∧ refAtoi "12a" = none ∧
    refAtoi "" = none ∧
    refParseFloat "0.005" = some (F64.fin false (5764607523034235 / ((2 ^ 60 : ℕ) : ℚ))) ∧
    refParseFloat "abc" = none ∧
    refSqrt (F64.fin false 2) = F64.fin false (6369051672525773 / ((2 ^ 52 : ℕ) : ℚ)) := by
  refine ⟨?_, ?_, ?_, ?_, ?_, ?_, ?_, ?_⟩ <;> decide!

/-- C1: for every list of ranges and every distance, `selectRange` returns what the
first range matching the cutoff rule or the interval rule decides: Blocked
`(zero, false, true)` when that range matches by the cutoff rule, Selected
`(r, true, false)` with exactly that range otherwise, and Unavailable
`(zero, false, false)` when no range matches. On the ranges of the test, 200 selects
`{0,500}`, 500 and 999 select `{500,1000}`, and 1000 is blocked. -/
theorem selectRange_first_match :
    (∀ (ranges : List DistanceRange) (d : ℤ), selectRange ranges d = selectRangeSpec ranges d) ∧
    selectRange testRanges 200 = (⟨0, 500, 0, 0⟩, true, false) ∧
    selectRange testRanges 500 = (⟨500, 1000, 100, 1⟩, true, false) ∧
    selectRange testRanges 999 = (⟨500, 1000, 100, 1⟩, true, false) ∧
    selectRange testRanges 1000 = (DistanceRange.zero, false, true) := by
  refine ⟨?_, by decide, by decide, by decide, by decide⟩
  intro ranges d
  induction ranges with
  | nil => rfl
  | cons r rest ih =>
    have hstep : selectRangeSpec (r :: rest) d =
        if cutoffRule d r ∨ intervalRule d r then
          (if cutoffRule d r then (DistanceRange.zero, false, true) else (r, true, false))
        else selectRangeSpec rest d := by
      unfold selectRangeSpec
      by_cases h : cutoffRule d r ∨ intervalRule d r
      · simp only [List.find?, h, decide_True, if_true]
      · simp only [List.find?, h, decide_False, if_false]
    rw [hstep, selectRange]
    by_cases hc : r.Max = 0 ∧ d ≥ r.Min
    · have hcut : cutoffRule d r := hc
      rw [if_pos hc, if_pos (Or.inl hcut), if_pos hcut]
    · have hcut : ¬ cutoffRule d r := hc
      rw [if_neg hc]
      by_cases hi : d ≥ r.Min ∧ d < r.Max
      · have hint : intervalRule d r := ⟨hi.1, hi.2⟩
        rw [if_pos hi, if_pos (Or.inr hint), if_neg hcut]
      · have hint : ¬ intervalRule d r := fun h => hi ⟨h.1, h.2⟩
        rw [if_neg hi, if_neg (not_or.mpr ⟨hcut, hint⟩), ih]

/-! ### The handler -/

theorem wrap64_isInt64 (x : ℤ) : IsInt64 (wrap64 x) := by
  unfold IsInt64 wrap64
  constructor <;> omega

theorem wrap64_of_isInt64 (x : ℤ) (h : IsInt64 x) : wrap64 x = x := by
  unfold IsInt64 at h
  unfold wrap64
  omega

theorem add64_add64 (x y z : ℤ) : add64 (add64 x y) z = wrap64 (x + y + z) := by
  unfold add64 wrap64
  omega

theorem F64.toInt_isInt64 (undef : F64 → ℤ) (x : F64) : IsInt64 (F64.toInt undef x) := by
  cases x with
  | nan => exact wrap64_isInt64 _
  | inf s => exact wrap64_isInt64 _
  | fin s m =>
    show IsInt64 (if IsInt64 (F64.truncate s m) then F64.truncate s m
      else wrap64 (undef (F64.fin s m)))
    split_ifs with h
    · exact h
    · exact wrap64_isInt64 _

theorem haversineMeters_isInt64 (rt : Runtime) (lat1 lon1 lat2 lon2 : F64) :
    IsInt64 (haversineMeters rt lat1 lon1 lat2 lon2) :=
  F64.toInt_isInt64 _ _

/-- A request that fails validation is answered with status 400. -/
theorem validate_error_code (rt : Runtime) (q : Query) (resp : Response)
    (h : validate rt q = Except.error resp) : resp.code = 400 := by
  unfold validate at h
  split_ifs at h with h1
  · cases h; rfl
  · split at h
    · cases h; rfl
    · split_ifs at h with h2
      · cases h; rfl
      · split at h
        · cases h; rfl
        · split_ifs at h with h3
          · cases h; rfl
          · split at h
            · cases h; rfl
            · split_ifs at h with h4
              · cases h; rfl

/-- What a validated request satisfies: the four values are present, `cart_value`
parses to `cartValue ≥ 0`, the coordinates parse and pass the two range tests. -/
theorem validate_ok (rt : Runtime) (q : Query) (cartValue : ℤ) (userLat userLon : F64)
    (h : validate rt q = Except.ok (cartValue, userLat, userLon)) :
    (q.venue_slug ≠ "" ∧ q.cart_value ≠ "" ∧ q.user_lat ≠ "" ∧ q.user_lon ≠ "") ∧
    (rt.Atoi q.cart_value = some cartValue ∧ 0 ≤ cartValue) ∧
    (rt.ParseFloat q.user_lat = some userLat ∧
      userLat.lt (F64.ofInt (-90)) = false ∧ userLat.gt (F64.ofInt 90) = false) ∧
    (rt.ParseFloat q.user_lon = some userLon ∧
      userLon.lt (F64.ofInt (-180)) = false ∧ userLon.gt (F64.ofInt 180) = false) := by
  unfold validate at h
  split_ifs at h with h1
  split at h
  · cases h
  · rename_i c hc
    split_ifs at h with h2
    split at h
    · cases h
    · rename_i lat hlat
      split_ifs at h with h3
      split at h
      · cases h
      · rename_i lon hlon
        split_ifs at h with h4
        cases h
        simp only [Bool.or_eq_true, not_or, Bool.not_eq_true] at h3 h4
        refine ⟨?_, ⟨hc, not_lt.mp h2⟩, ⟨hlat, h3.1, h3.2⟩, ⟨hlon, h4.1, h4.2⟩⟩
        simp only [not_or] at h1
        exact ⟨h1.1, h1.2.1, h1.2.2.1, h1.2.2.2⟩

/-- The loop receives both records exactly when neither lookup failed and the
deadline did not fire. -/
theorem receive_ok (sr : Except String StaticData) (dr : Except String DynamicData)
    (sched : Schedule) (sdata : StaticData) (ddata : DynamicData)
    (h : receive sr dr sched.fired StaticData.zero DynamicData.zero = Except.ok (sdata, ddata)) :
    sr = Except.ok sdata ∧ dr = Except.ok ddata ∧ sched.noDeadline = true := by
  cases sched <;> cases sr <;> cases dr <;>
    simp [Schedule.fired, receive, Schedule.noDeadline] at h ⊢ <;>
    exact ⟨h.1, h.2⟩

theorem receive_of_ok (sr : Except String StaticData) (dr : Except String DynamicData)
    (sched : Schedule) (sdata : StaticData) (ddata : DynamicData)
    (hs : sr = Except.ok sdata) (hd : dr = Except.ok ddata) (hn : sched.noDeadline = true) :
    receive sr dr sched.fired StaticData.zero DynamicData.zero = Except.ok (sdata, ddata) := by
  subst hs hd
  cases sched <;> simp [Schedule.fired, receive, Schedule.noDeadline] at hn ⊢

/-- A failed receive is answered with status 400 or 504. -/
theorem receive_error_code (sr : Except String StaticData) (dr : Except String DynamicData)
    (sched : Schedule) (resp : Response)
    (h : receive sr dr sched.fired StaticData.zero DynamicData.zero = Except.error resp) :
    resp.code = 400 ∨ resp.code = 504 := by
  cases sched <;> cases sr <;> cases dr <;>
    simp [Schedule.fired, receive] at h <;> subst h <;> simp [writeError, writeJSON]

/-- Lines 100-125 once the range selector has answered `(rng, ok, blocked)`. -/
theorem respond_of_select (rt : Runtime) (cartValue : ℤ) (userLat userLon : F64)
    (sdata : StaticData) (ddata : DynamicData) (rng : DistanceRange) (ok blocked : Bool)
    (hsel : selectRange ddata.DistanceRanges
      (haversineMeters rt userLat userLon sdata.Lat sdata.Lon) = (rng, ok, blocked)) :
    respond rt cartValue userLat userLon sdata ddata =
      if blocked || !ok then writeError 400 "delivery not available for this distance"
      else writeJSON 200 (Body.price
        { TotalPrice := add64 (add64 cartValue
              (if sub64 sdata.OrderMinimumNoSurcharge cartValue < 0 then 0
                else sub64 sdata.OrderMinimumNoSurcharge cartValue))
            (add64 (add64 ddata.BasePrice rng.A)
              (distanceFee rt rng.B (haversineMeters rt userLat userLon sdata.Lat sdata.Lon))),
          SmallOrderSurcharge :=
            (if sub64 sdata.OrderMinimumNoSurcharge cartValue < 0 then 0
              else sub64 sdata.OrderMinimumNoSurcharge cartValue),
          CartValue := cartValue,
          Delivery :=
            { Fee := add64 (add64 ddata.BasePrice rng.A)
                (distanceFee rt rng.B (haversineMeters rt userLat userLon sdata.Lat sdata.Lon)),
              Distance := haversineMeters rt userLat userLon sdata.Lat sdata.Lon } }) := by
  unfold respond
  simp only [hsel]

/-- The handler on a validated request whose two records were received. -/
theorem PriceHandler_of_received (rt : Runtime) (api : Client) (sched : Schedule) (q : Query)
    (cartValue : ℤ) (userLat userLon : F64) (sdata : StaticData) (ddata : DynamicData)
    (hv : validate rt q = Except.ok (cartValue, userLat, userLon))
    (hs : api.GetStatic q.venue_slug = Except.ok sdata)
    (hd : api.GetDynamic q.venue_slug = Except.ok ddata)
    (hn : sched.noDeadline = true) :
    PriceHandler rt api sched q = ⟨respond rt cartValue userLat userLon sdata ddata, 1, 1⟩ := by
  unfold PriceHandler
  simp only [hv, receive_of_ok _ _ sched sdata ddata hs hd hn]

/-- A response with status 200 comes from lines 100-125, run on a validated request
and on the two records the lookups returned. -/
theorem PriceHandler_ok_inv (rt : Runtime) (api : Client) (sched : Schedule) (q : Query)
    (h : (PriceHandler rt api sched q).response.code = 200) :
    ∃ cartValue userLat userLon sdata ddata,
      validate rt q = Except.ok (cartValue, userLat, userLon) ∧
      api.GetStatic q.venue_slug = Except.ok sdata ∧
      api.GetDynamic q.venue_slug = Except.ok ddata ∧
      sched.noDeadline = true ∧
      (PriceHandler rt api sched q).response = respond rt cartValue userLat userLon sdata ddata := by
  unfold PriceHandler at h ⊢
  rcases hv : validate rt q with resp | ⟨cartValue, userLat, userLon⟩
  · rw [hv] at h
    have := validate_error_code rt q resp hv
    simp only at h
    omega
  · rw [hv] at h
    simp only at h ⊢
    rcases hr : receive (api.GetStatic q.venue_slug) (api.GetDynamic q.venue_slug)
        sched.fired StaticData.zero DynamicData.zero with resp | ⟨sdata, ddata⟩
    · rw [hr] at h
      have := receive_error_code _ _ sched resp hr
      simp only at h
      omega
    · obtain ⟨h1, h2, h3⟩ := receive_ok _ _ sched sdata ddata hr
      exact ⟨cartValue, userLat, userLon, sdata, ddata, rfl, h1, h2, h3, rfl⟩

/-- The body of a response with status 200: the price record of lines 110-125. -/
theorem PriceHandler_price_inv (rt : Runtime) (api : Client) (sched : Schedule) (q : Query)
    (p : priceResponse)
    (h : (PriceHandler rt api sched q).response = ⟨200, Body.price p⟩) :
    ∃ cartValue userLat userLon sdata ddata rng,
      validate rt q = Except.ok (cartValue, userLat, userLon) ∧
      api.GetStatic q.venue_slug = Except.ok sdata ∧
      api.GetDynamic q.venue_slug = Except.ok ddata ∧
      selectRange ddata.DistanceRanges
        (haversineMeters rt userLat userLon sdata.Lat sdata.Lon) = (rng, true, false) ∧
      p.Delivery.Distance = haversineMeters rt userLat userLon sdata.Lat sdata.Lon ∧
      p.CartValue = cartValue ∧
      p.SmallOrderSurcharge =
        (if sub64 sdata.OrderMinimumNoSurcharge cartValue < 0 then 0
          else sub64 sdata.OrderMinimumNoSurcharge cartValue) ∧
      p.Delivery.Fee = add64 (add64 ddata.BasePrice rng.A)
        (distanceFee rt rng.B (haversineMeters rt userLat userLon sdata.Lat sdata.Lon)) ∧
      p.TotalPrice = add64 (add64 p.CartValue p.SmallOrderSurcharge) p.Delivery.Fee := by
  have hcode : (PriceHandler rt api sched q).response.code = 200 := by rw [h]
  obtain ⟨cartValue, userLat, userLon, sdata, ddata, hv, hs, hd, -, hresp⟩ :=
    PriceHandler_ok_inv rt api sched q hcode
  rcases hsel : selectRange ddata.DistanceRanges
      (haversineMeters rt userLat userLon sdata.Lat sdata.Lon) with ⟨rng, ok, blocked⟩
  rw [hresp, respond_of_select rt cartValue userLat userLon sdata ddata rng ok blocked hsel] at h
  by_cases hb : (blocked || !ok) = true
  · rw [if_pos hb] at h
    simp [writeError, writeJSON] at h
  · rw [if_neg hb] at h
    simp only [writeJSON, Response.mk.injEq, Body.price.injEq, true_and] at h
    have hok : ok = true ∧ blocked = false := by
      cases ok <;> cases blocked <;> simp at hb ⊢
    obtain ⟨rfl, rfl⟩ := hok
    refine ⟨cartValue, userLat, userLon, sdata, ddata, rng, hv, hs, hd, hsel, ?_⟩
    subst h
    exact ⟨rfl, rfl, rfl, rfl, rfl⟩

/-- The fee without wrap-around. In every successful response the fee is
`p + a + round(b * d / 10)` reduced to a 64-bit `int`, where `p` is the base price,
`(a, b)` the coefficients of the range selected for the returned distance `d`, and
`round` takes the exact quotient to the nearest integer, halves away from zero,
provided `|b * d| < 2^53`; it is that sum itself whenever the sum is in range. The
rounding is applied once, after the multiplication and the division: for `b = 3`,
`d = 5` the code yields `round(1.5) = 2`, not `3 * round(0.5) = 3`. -/
theorem fee_rounds_once (rt : Runtime) (api : Client) (sched : Schedule) (q : Query)
    (p : priceResponse) (ddata : DynamicData) (rng : DistanceRange) (ok blocked : Bool)
    (h : (PriceHandler rt api sched q).response = ⟨200, Body.price p⟩)
    (hd : api.GetDynamic q.venue_slug = Except.ok ddata)
    (hsel : selectRange ddata.DistanceRanges p.Delivery.Distance = (rng, ok, blocked))
    (hB : IsInt64 rng.B)
    (hbd : |rng.B * p.Delivery.Distance| < 2 ^ 53) :
    p.Delivery.Fee = wrap64 (ddata.BasePrice + rng.A +
        roundHalfAway (((rng.B * p.Delivery.Distance : ℤ) : ℚ) / 10)) ∧
    (IsInt64 (ddata.BasePrice + rng.A +
        roundHalfAway (((rng.B * p.Delivery.Distance : ℤ) : ℚ) / 10)) →
      p.Delivery.Fee = ddata.BasePrice + rng.A +
        roundHalfAway (((rng.B * p.Delivery.Distance : ℤ) : ℚ) / 10)) ∧
    (distanceFee rt 3 5 = 2 ∧ 3 * roundHalfAway ((5 : ℚ) / 10) = 3) := by
  obtain ⟨cartValue, userLat, userLon, sdata, ddata', rng', hv, hs, hd', hsel', hdist, -, -,
    hfee, -⟩ := PriceHandler_price_inv rt api sched q p h
  have hdd : ddata' = ddata := by
    rw [hd] at hd'; exact (Except.ok.inj hd').symm
  subst hdd
  rw [← hdist] at hsel' hfee
  have hrng : rng' = rng := by
    rw [hsel] at hsel'; exact (Prod.mk.inj hsel').1.symm
  subst hrng
  have hD : IsInt64 p.Delivery.Distance := by
    rw [hdist]; exact haversineMeters_isInt64 _ _ _ _ _
  have hfee' : p.Delivery.Fee = wrap64 (ddata'.BasePrice + rng'.A +
      roundHalfAway (((rng'.B * p.Delivery.Distance : ℤ) : ℚ) / 10)) := by
    rw [hfee, add64_add64, distanceFee_exact rt _ _ hB hD hbd]
  refine ⟨hfee', fun hr => by rw [hfee', wrap64_of_isInt64 _ hr], ?_, ?_⟩
  · rw [distanceFee_exact rt 3 5 (by decide) (by decide) (by decide), roundHalfAway_div10]
    decide
  · rw [show ((5 : ℚ) / 10) = ((5 : ℤ) : ℚ) / 10 by norm_num, roundHalfAway_div10]
    decide

/-- The request of `TestPriceHandler_OK`: distance 556 m, range `{500,2000,100,1}`,
fee `199 + 100 + round(55.6) = 355`. -/
theorem fee_rounds_once_witness :
    ((PriceHandler refRuntime okClient Schedule.staticThenDynamic okQuery).response
        = ⟨200, Body.price okPrice⟩ ∧
      okClient.GetDynamic okQuery.venue_slug
        = Except.ok ⟨199, [⟨0, 500, 0, 0⟩, ⟨500, 2000, 100, 1⟩, ⟨2000, 0, 0, 0⟩]⟩ ∧
      selectRange [⟨0, 500, 0, 0⟩, ⟨500, 2000, 100, 1⟩, ⟨2000, 0, 0, 0⟩] 556
        = (⟨500, 2000, 100, 1⟩, true, false) ∧
      IsInt64 1 ∧ |(1 : ℤ) * 556| < 2 ^ 53) ∧
    (355 : ℤ) = wrap64 (199 + 100 + roundHalfAway ((((1 : ℤ) * 556 : ℤ) : ℚ) / 10)) :=
  ⟨⟨by decide!, rfl, by decide, by decide, by decide⟩,
    (fee_rounds_once refRuntime okClient Schedule.staticThenDynamic okQuery okPrice
      ⟨199, [⟨0, 500, 0, 0⟩, ⟨500, 2000, 100, 1⟩, ⟨2000, 0, 0, 0⟩]⟩ ⟨500, 2000, 100, 1⟩ true false
      (by decide!) rfl (by decide) (by decide) (by decide)).1⟩

/-- C2 (the code departs from the claim): with base price `p = 2^63 - 1024`, selected
range `{0, 500, a = 1024, b = 0}` and distance `d = 0`, so that `b * d = 0`, the sum
`p + a + round(b * d / 10)` is `2^63`, and the addition `p + a` of line 117 wraps
around: the response carries the fee `-2^63`. -/
theorem fee_wraps_around :
    (PriceHandler refRuntime maxBaseClient Schedule.staticThenDynamic
        ⟨"v", "1000", "0", "0"⟩).response =
      ⟨200, Body.price ⟨-9223372036854774808, 0, 1000, ⟨-9223372036854775808, 0⟩⟩⟩ ∧
    selectRange [⟨0, 500, 1024, 0⟩] 0 = (⟨0, 500, 1024, 0⟩, true, false) ∧
    |(0 : ℤ) * 0| < 2 ^ 53 ∧
    (9223372036854774784 : ℤ) + 1024 + roundHalfAway ((((0 : ℤ) * 0 : ℤ) : ℚ) / 10)
      = 9223372036854775808 := by
  refine ⟨?_, ?_, ?_, ?_⟩ <;> decide!

/-- A response with status 200 carries a price record. -/
theorem PriceHandler_ok_body (rt : Runtime) (api : Client) (sched : Schedule) (q : Query)
    (h : (PriceHandler rt api sched q).response.code = 200) :
    ∃ p, (PriceHandler rt api sched q).response = ⟨200, Body.price p⟩ := by
  obtain ⟨cartValue, userLat, userLon, sdata, ddata, -, -, -, -, hresp⟩ :=
    PriceHandler_ok_inv rt api sched q h
  rcases hsel : selectRange ddata.DistanceRanges
      (haversineMeters rt userLat userLon sdata.Lat sdata.Lon) with ⟨rng, ok, blocked⟩
  have hr := respond_of_select rt cartValue userLat userLon sdata ddata rng ok blocked hsel
  by_cases hb : (blocked || !ok) = true
  · rw [hresp, hr, if_pos hb] at h
    simp [writeError, writeJSON] at h
  · rw [if_neg hb] at hr
    rw [hresp, hr]
    exact ⟨_, rfl⟩

/-- The total without wrap-around. Every response with status 200 carries a price
record in which the total is `cart_value + small_order_surcharge + delivery.fee` as Go
computes it on `int`, hence that sum itself whenever the sum is in range, and in
which `cart_value` is the integer the `cart_value` of the request parses to. -/
theorem total_is_sum (rt : Runtime) (api : Client) (sched : Schedule) (q : Query)
    (h : (PriceHandler rt api sched q).response.code = 200) :
    ∃ p, (PriceHandler rt api sched q).response.body = Body.price p ∧
      p.TotalPrice = add64 (add64 p.CartValue p.SmallOrderSurcharge) p.Delivery.Fee ∧
      (IsInt64 (p.CartValue + p.SmallOrderSurcharge + p.Delivery.Fee) →
        p.TotalPrice = p.CartValue + p.SmallOrderSurcharge + p.Delivery.Fee) ∧
      rt.Atoi q.cart_value = some p.CartValue := by
  obtain ⟨p, hp⟩ := PriceHandler_ok_body rt api sched q h
  obtain ⟨cartValue, userLat, userLon, sdata, ddata, rng, hv, -, -, -, -, hcart, -, -,
    htotal⟩ := PriceHandler_price_inv rt api sched q p hp
  refine ⟨p, by rw [hp], htotal, fun hin => ?_, ?_⟩
  · rw [htotal, add64_add64, wrap64_of_isInt64 _ hin]
  · rw [hcart]; exact (validate_ok rt q _ _ _ hv).2.1.1

/-- The request of `TestPriceHandler_OK` is answered 200, and its price record
satisfies the three statements. -/
theorem total_is_sum_witness :
    (PriceHandler refRuntime okClient Schedule.staticThenDynamic okQuery).response.code = 200 ∧
    ∃ p, (PriceHandler refRuntime okClient Schedule.staticThenDynamic okQuery).response.body
        = Body.price p ∧
      p.TotalPrice = add64 (add64 p.CartValue p.SmallOrderSurcharge) p.Delivery.Fee ∧
      (IsInt64 (p.CartValue + p.SmallOrderSurcharge + p.Delivery.Fee) →
        p.TotalPrice = p.CartValue + p.SmallOrderSurcharge + p.Delivery.Fee) ∧
      refRuntime.Atoi okQuery.cart_value = some p.CartValue :=
  ⟨by decide!,
    total_is_sum refRuntime okClient Schedule.staticThenDynamic okQuery (by decide!)⟩

/-- C3 (the code departs from the claim): the request of `TestPriceHandler_OK` with
`cart_value=9223372036854775807` is answered 200 with surcharge 0 and fee 355, and
the addition of line 118 wraps around: the total is `-9223372036854775454`, while
`cart_value + small_order_surcharge + delivery.fee` is `9223372036854776162`. -/
theorem total_wraps_around :
    (PriceHandler refRuntime okClient Schedule.staticThenDynamic
        ⟨"v", "9223372036854775807", "0", "0.005"⟩).response =
      ⟨200, Body.price ⟨-9223372036854775454, 0, 9223372036854775807, ⟨355, 556⟩⟩⟩ ∧
    (9223372036854775807 : ℤ) + 0 + 355 = 9223372036854776162 := by
  refine ⟨?_, ?_⟩ <;> decide!

/-- The surcharge of a successful response is never negative, and it is
`max(0, m - c)` whenever the subtraction `m - c` does not wrap around. -/
theorem surcharge_without_wrap (rt : Runtime) (api : Client) (sched : Schedule) (q : Query)
    (p : priceResponse) (sdata : StaticData)
    (h : (PriceHandler rt api sched q).response = ⟨200, Body.price p⟩)
    (hs : api.GetStatic q.venue_slug = Except.ok sdata) :
    0 ≤ p.SmallOrderSurcharge ∧
    (IsInt64 (sdata.OrderMinimumNoSurcharge - p.CartValue) →
      p.SmallOrderSurcharge = max 0 (sdata.OrderMinimumNoSurcharge - p.CartValue)) := by
  obtain ⟨cartValue, userLat, userLon, sdata', ddata, rng, -, hs', -, -, -, hcart, hsur, -, -⟩ :=
    PriceHandler_price_inv rt api sched q p h
  have hsd : sdata' = sdata := by
    rw [hs] at hs'; exact (Except.ok.inj hs').symm
  subst hsd
  rw [hsur, hcart]
  constructor
  · split_ifs with hneg
    · exact le_rfl
    · exact not_lt.mp hneg
  · intro hr
    unfold sub64
    rw [wrap64_of_isInt64 _ hr]
    split_ifs with hneg
    · exact (max_eq_left hneg.le).symm
    · exact (max_eq_right (not_lt.mp hneg)).symm

/-- C4 (the code departs from the claim): with threshold `m = -2^63` and cart value
`c = 1` the subtraction `m - c` wraps around to `2^63 - 1`, which is not negative, so
the response carries the surcharge 9223372036854775807 although `c ≥ m`. -/
theorem surcharge_wraps_around :
    (PriceHandler refRuntime minThresholdClient Schedule.staticThenDynamic
        ⟨"v", "1", "0", "0"⟩).response =
      ⟨200, Body.price ⟨-9223372036854775808, 9223372036854775807, 1, ⟨0, 0⟩⟩⟩ := by
  decide!

/-- C5: on a validated request whose two lookups both delivered their record, when the
range selector answers Blocked or Unavailable for the computed distance the handler
answers 400 with the error body `delivery not available for this distance`, whatever
the cart value, the base price and the surcharge threshold are. -/
theorem unavailable_is_400 (rt : Runtime) (api : Client) (sched : Schedule) (q : Query)
    (cartValue : ℤ) (userLat userLon : F64) (sdata : StaticData) (ddata : DynamicData)
    (rng : DistanceRange) (ok blocked : Bool)
    (hv : validate rt q = Except.ok (cartValue, userLat, userLon))
    (hs : api.GetStatic q.venue_slug = Except.ok sdata)
    (hd : api.GetDynamic q.venue_slug = Except.ok ddata)
    (hn : sched = Schedule.staticThenDynamic ∨ sched = Schedule.dynamicThenStatic)
    (hsel : selectRange ddata.DistanceRanges
      (haversineMeters rt userLat userLon sdata.Lat sdata.Lon) = (rng, ok, blocked))
    (hout : blocked = true ∨ ok = false) :
    PriceHandler rt api sched q =
      ⟨⟨400, Body.error ⟨"delivery not available for this distance"⟩⟩, 1, 1⟩ := by
  have hn' : sched.noDeadline = true := by rcases hn with rfl | rfl <;> rfl
  rw [PriceHandler_of_received rt api sched q _ _ _ _ _ hv hs hd hn',
    respond_of_select rt cartValue userLat userLon sdata ddata rng ok blocked hsel]
  have : (blocked || !ok) = true := by
    rcases hout with rfl | rfl <;> simp
  rw [if_pos this]
  rfl

/-- The request of `TestPriceHandler_Blocked`: 1112 m from the venue, cut off at
1000 m. -/
theorem unavailable_is_400_witness :
    (validate refRuntime blockedQuery = Except.ok (0, F64.fin false 0, F64.ofMag false (1 / 100)) ∧
      blockedClient.GetStatic blockedQuery.venue_slug
        = Except.ok ⟨F64.fin false 0, F64.fin false 0, 0⟩ ∧
      blockedClient.GetDynamic blockedQuery.venue_slug
        = Except.ok ⟨0, [⟨0, 1000, 0, 0⟩, ⟨1000, 0, 0, 0⟩]⟩ ∧
      selectRange [⟨0, 1000, 0, 0⟩, ⟨1000, 0, 0, 0⟩]
        (haversineMeters refRuntime (F64.fin false 0) (F64.ofMag false (1 / 100))
          (F64.fin false 0) (F64.fin false 0)) = (DistanceRange.zero, false, true) ∧
      haversineMeters refRuntime (F64.fin false 0) (F64.ofMag false (1 / 100))
          (F64.fin false 0) (F64.fin false 0) = 1112) ∧
    PriceHandler refRuntime blockedClient Schedule.dynamicThenStatic blockedQuery =
      ⟨⟨400, Body.error ⟨"delivery not available for this distance"⟩⟩, 1, 1⟩ :=
  ⟨⟨by decide!, rfl, rfl, by decide!, by decide!⟩,
    unavailable_is_400 refRuntime blockedClient Schedule.dynamicThenStatic blockedQuery
      0 (F64.fin false 0) (F64.ofMag false (1 / 100)) ⟨F64.fin false 0, F64.fin false 0, 0⟩
      ⟨0, [⟨0, 1000, 0, 0⟩, ⟨1000, 0, 0, 0⟩]⟩ DistanceRange.zero false true
      (by decide!) rfl rfl (Or.inr rfl) (by decide!) (Or.inl rfl)⟩

/-- C6: when one of the four query values is missing or empty the handler answers 400
with `missing required query parameters` and makes no call to `GetStatic` and no
call to `GetDynamic`. -/
theorem missing_field_no_calls (rt : Runtime) (api : Client) (sched : Schedule) (q : Query)
    (h : q.venue_slug = "" ∨ q.cart_value = "" ∨ q.user_lat = "" ∨ q.user_lon = "") :
    PriceHandler rt api sched q =
      ⟨⟨400, Body.error ⟨"missing required query parameters"⟩⟩, 0, 0⟩ := by
  unfold PriceHandler validate
  rw [if_pos h]
  rfl

/-- A request without `user_lat`. -/
theorem missing_field_no_calls_witness :
    (("v" : String) = "" ∨ ("1000" : String) = "" ∨ ("" : String) = "" ∨ ("0.005" : String) = "") ∧
    PriceHandler refRuntime okClient Schedule.staticThenDynamic ⟨"v", "1000", "", "0.005"⟩ =
      ⟨⟨400, Body.error ⟨"missing required query parameters"⟩⟩, 0, 0⟩ :=
  ⟨Or.inr (Or.inr (Or.inl rfl)),
    missing_field_no_calls refRuntime okClient Schedule.staticThenDynamic
      ⟨"v", "1000", "", "0.005"⟩ (Or.inr (Or.inr (Or.inl rfl)))⟩

/-- C7: on a validated request, in either order of arrival of the two results and with
the deadline not firing, a failed `GetStatic` beside a successful `GetDynamic` is
answered 400 `failed to fetch venue static info`, and a failed `GetDynamic` beside a
successful `GetStatic` is answered 400 `failed to fetch venue dynamic info`; the body
is an error body, so no distance, fee, surcharge or total is returned. -/
theorem lookup_failure_is_400 (rt : Runtime) (api : Client) (sched : Schedule) (q : Query)
    (cartValue : ℤ) (userLat userLon : F64)
    (hv : validate rt q = Except.ok (cartValue, userLat, userLon))
    (hn : sched = Schedule.staticThenDynamic ∨ sched = Schedule.dynamicThenStatic) :
    (∀ e ddata, api.GetStatic q.venue_slug = Except.error e →
      api.GetDynamic q.venue_slug = Except.ok ddata →
      PriceHandler rt api sched q =
        ⟨⟨400, Body.error ⟨"failed to fetch venue static info"⟩⟩, 1, 1⟩) ∧
    (∀ e sdata, api.GetDynamic q.venue_slug = Except.error e →
      api.GetStatic q.venue_slug = Except.ok sdata →
      PriceHandler rt api sched q =
        ⟨⟨400, Body.error ⟨"failed to fetch venue dynamic info"⟩⟩, 1, 1⟩) := by
  constructor
  · intro e ddata hs hd
    unfold PriceHandler
    rcases hn with rfl | rfl <;>
      simp [hv, hs, hd, Schedule.fired, receive, writeError, writeJSON]
  · intro e sdata hd hs
    unfold PriceHandler
    rcases hn with rfl | rfl <;>
      simp [hv, hs, hd, Schedule.fired, receive, writeError, writeJSON]

/-- The request of `TestPriceHandler_OK` against a client whose static lookup fails,
the dynamic result arriving first. -/
theorem lookup_failure_is_400_witness :
    (validate refRuntime okQuery = Except.ok (1000, F64.fin false 0, F64.ofMag false (5 / 1000)) ∧
      staticDownClient.GetStatic okQuery.venue_slug = Except.error "static endpoint 500" ∧
      staticDownClient.GetDynamic okQuery.venue_slug
        = Except.ok ⟨199, [⟨0, 500, 0, 0⟩, ⟨500, 2000, 100, 1⟩, ⟨2000, 0, 0, 0⟩]⟩) ∧
    PriceHandler refRuntime staticDownClient Schedule.dynamicThenStatic okQuery =
      ⟨⟨400, Body.error ⟨"failed to fetch venue static info"⟩⟩, 1, 1⟩ :=
  ⟨⟨by decide!, rfl, rfl⟩,
    (lookup_failure_is_400 refRuntime staticDownClient Schedule.dynamicThenStatic okQuery
      1000 (F64.fin false 0) (F64.ofMag false (5 / 1000)) (by decide!) (Or.inr rfl)).1
      "static endpoint 500" ⟨199, [⟨0, 500, 0, 0⟩, ⟨500, 2000, 100, 1⟩, ⟨2000, 0, 0, 0⟩]⟩ rfl rfl⟩

/-- A float that is neither below `-b` nor above `b` is a number in `[-b, b]`, or
`NaN`: both comparisons are false for `NaN`. -/
theorem F64.range_test (x : F64) (b : ℚ)
    (h1 : x.lt (F64.fin true b) = false) (h2 : x.gt (F64.fin false b) = false) :
    x = F64.nan ∨
      ∃ s m, x = F64.fin s m ∧ -b ≤ (F64.fin s m).toRat ∧ (F64.fin s m).toRat ≤ b := by
  cases x with
  | nan => left; rfl
  | inf s => cases s <;> simp [F64.lt, F64.gt] at h1 h2
  | fin s m =>
    right
    refine ⟨s, m, rfl, ?_, ?_⟩
    · have : ¬ ((F64.fin s m).toRat < (F64.fin true b).toRat) := by
        simpa [F64.lt] using h1
      have e : (F64.fin true b).toRat = -b := by simp [F64.toRat]
      rw [e] at this
      exact not_lt.mp this
    · have : ¬ ((F64.fin false b).toRat < (F64.fin s m).toRat) := by
        simpa [F64.lt, F64.gt] using h2
      have e : (F64.fin false b).toRat = b := by simp [F64.toRat]
      rw [e] at this
      exact not_lt.mp this

/-- The tests `userLat < -90 || userLat > 90` and `userLon < -180 || userLon > 180` let
one value through that is not a coordinate: a validated latitude is a number in
`[-90, 90]` or `NaN`, a validated longitude a number in `[-180, 180]` or `NaN`. -/
theorem validated_coordinates (rt : Runtime) (q : Query) (cartValue : ℤ)
    (userLat userLon : F64)
    (h : validate rt q = Except.ok (cartValue, userLat, userLon)) :
    (userLat = F64.nan ∨
      ∃ s m, userLat = F64.fin s m ∧ -90 ≤ (F64.fin s m).toRat ∧ (F64.fin s m).toRat ≤ 90) ∧
    (userLon = F64.nan ∨
      ∃ s m, userLon = F64.fin s m ∧ -180 ≤ (F64.fin s m).toRat ∧
        (F64.fin s m).toRat ≤ 180) := by
  obtain ⟨-, -, ⟨-, h1, h2⟩, ⟨-, h3, h4⟩⟩ := validate_ok rt q _ _ _ h
  have e1 : F64.ofInt (-90) = F64.fin true 90 := by decide!
  have e2 : F64.ofInt 90 = F64.fin false 90 := by decide!
  have e3 : F64.ofInt (-180) = F64.fin true 180 := by decide!
  have e4 : F64.ofInt 180 = F64.fin false 180 := by decide!
  rw [e1] at h1
  rw [e2] at h2
  rw [e3] at h3
  rw [e4] at h4
  exact ⟨F64.range_test userLat 90 h1 h2, F64.range_test userLon 180 h3 h4⟩

/-- The upstream lookups are reached only by a request that passed validation. -/
theorem upstream_only_if_validated (rt : Runtime) (api : Client) (sched : Schedule) (q : Query)
    (h : (PriceHandler rt api sched q).staticCalls ≠ 0 ∨
      (PriceHandler rt api sched q).dynamicCalls ≠ 0) :
    ∃ cartValue userLat userLon, validate rt q = Except.ok (cartValue, userLat, userLon) := by
  unfold PriceHandler at h
  rcases hv : validate rt q with resp | ⟨cartValue, userLat, userLon⟩
  · rw [hv] at h; simp at h
  · exact ⟨cartValue, userLat, userLon, rfl⟩

theorem F64.nan_lt (y : F64) : F64.nan.lt y = false := by
  cases y <;> rfl

theorem F64.lt_nan (x : F64) : x.lt F64.nan = false := by
  cases x <;> rfl

/-- C8 (the code departs from the claim): a `user_lat` that parses to `NaN` is not
rejected. Both comparisons `userLat < -90` and `userLat > 90` are false for `NaN`, so
the request passes validation and both upstream lookups are made. -/
theorem nan_latitude_reaches_upstream (rt : Runtime) (api : Client) (sched : Schedule)
    (q : Query) (cartValue : ℤ) (userLon : F64)
    (hq : q.venue_slug ≠ "" ∧ q.cart_value ≠ "" ∧ q.user_lat ≠ "" ∧ q.user_lon ≠ "")
    (hc : rt.Atoi q.cart_value = some cartValue) (hc0 : 0 ≤ cartValue)
    (hlat : rt.ParseFloat q.user_lat = some F64.nan)
    (hlon : rt.ParseFloat q.user_lon = some userLon)
    (hlonr : userLon.lt (F64.ofInt (-180)) = false ∧ userLon.gt (F64.ofInt 180) = false) :
    validate rt q = Except.ok (cartValue, F64.nan, userLon) ∧
    (PriceHandler rt api sched q).staticCalls = 1 ∧
    (PriceHandler rt api sched q).dynamicCalls = 1 := by
  have hv : validate rt q = Except.ok (cartValue, F64.nan, userLon) := by
    unfold validate
    have h1 : ¬ (q.venue_slug = "" ∨ q.cart_value = "" ∨ q.user_lat = "" ∨ q.user_lon = "") := by
      rintro (h | h | h | h)
      · exact hq.1 h
      · exact hq.2.1 h
      · exact hq.2.2.1 h
      · exact hq.2.2.2 h
    rw [if_neg h1]
    have h2 : (F64.ofInt 180).lt userLon = false := hlonr.2
    simp only [hc, hlat, hlon, not_lt.mpr hc0, if_false, hlonr.1, h2, F64.gt,
      F64.nan_lt, F64.lt_nan, Bool.or_self, Bool.false_eq_true]
  refine ⟨hv, ?_, ?_⟩ <;>
  · unfold PriceHandler
    rw [hv]
    simp only
    split <;> rfl

/-- The request `venue_slug=v&cart_value=1000&user_lat=NaN&user_lon=0`. -/
theorem nan_latitude_reaches_upstream_witness :
    ((("v" : String) ≠ "" ∧ ("1000" : String) ≠ "" ∧ ("NaN" : String) ≠ "" ∧
        ("0" : String) ≠ "") ∧
      refRuntime.Atoi "1000" = some 1000 ∧ (0 : ℤ) ≤ 1000 ∧
      refRuntime.ParseFloat "NaN" = some F64.nan ∧
      refRuntime.ParseFloat "0" = some (F64.fin false 0)) ∧
    (validate refRuntime ⟨"v", "1000", "NaN", "0"⟩
        = Except.ok (1000, F64.nan, F64.fin false 0) ∧
      (PriceHandler refRuntime okClient Schedule.staticThenDynamic
        ⟨"v", "1000", "NaN", "0"⟩).staticCalls = 1 ∧
      (PriceHandler refRuntime okClient Schedule.staticThenDynamic
        ⟨"v", "1000", "NaN", "0"⟩).dynamicCalls = 1) :=
  ⟨⟨by decide, by decide!, by decide, by decide!, by decide!⟩,
    nan_latitude_reaches_upstream refRuntime okClient Schedule.staticThenDynamic
      ⟨"v", "1000", "NaN", "0"⟩ 1000 (F64.fin false 0) (by decide) (by decide!) (by decide)
      (by decide!) (by decide!) (by decide!)⟩

/-- What the handler answers to `user_lat=NaN` once the lookups are made: where
`int(NaN)` is the least `int` the distance matches no range and the answer is 400
`delivery not available for this distance`; where `int(NaN)` is 0 the answer is a
price for distance 0. -/
theorem nan_latitude_answers :
    PriceHandler refRuntime okClient Schedule.staticThenDynamic ⟨"v", "1000", "NaN", "0"⟩ =
      ⟨⟨400, Body.error ⟨"delivery not available for this distance"⟩⟩, 1, 1⟩ ∧
    PriceHandler zeroNaNRuntime okClient Schedule.staticThenDynamic ⟨"v", "1000", "NaN", "0"⟩ =
      ⟨⟨200, Body.price ⟨1199, 0, 1000, ⟨199, 0⟩⟩⟩, 1, 1⟩ := by
  constructor <;> decide!

/-! ### The distance from a point to itself -/

theorem F64.sub_self_fin (s : Bool) (m : ℚ) :
    (F64.fin s m).sub (F64.fin s m) = F64.fin false 0 := by
  show F64.ofRat (s && !s) ((F64.fin s m).toRat + (F64.fin (!s) m).toRat) = _
  have h0 : (F64.fin s m).toRat + (F64.fin (!s) m).toRat = 0 := by
    cases s <;> simp [F64.toRat]
  rw [h0]
  unfold F64.ofRat
  rw [if_pos rfl]
  cases s <;> rfl

theorem F64.absLe_fin (x : F64) (b : ℚ) (h : x.absLe b = true) :
    ∃ s m, x = F64.fin s m ∧ 0 ≤ m ∧ m ≤ b := by
  cases x with
  | nan => simp [F64.absLe] at h
  | inf s => simp [F64.absLe] at h
  | fin s m =>
    simp only [F64.absLe, decide_eq_true_eq] at h
    exact ⟨s, m, rfl, h.1, h.2⟩

theorem rad_zero : rad (F64.fin false 0) = F64.fin false 0 := by decide!

theorem half_zero : (F64.fin false 0).div (F64.ofInt 2) = F64.fin false 0 := by decide!

/-- A product with `+0` of the square of a float of magnitude at most 1 is `+0`. -/
theorem F64.sq_mul_zero (x : F64) (h : x.absLe 1 = true) :
    ((x.mul x).mul (F64.fin false 0)).mul (F64.fin false 0) = F64.fin false 0 := by
  obtain ⟨s, m, rfl, h0, h1⟩ := F64.absLe_fin x 1 h
  have hq0 : 0 ≤ m * m := mul_nonneg h0 h0
  have hq1 : m * m < 2 ^ (64 : ℤ) := by
    have : m * m ≤ 1 * 1 := mul_le_mul h1 h1 h0 (by norm_num)
    have h2 : (1 : ℚ) * 1 < 2 ^ (64 : ℤ) := by norm_num
    linarith
  rw [F64.mul_fin_fin, F64.ofMag_of_le _ _ (roundMag_le_maxFloat _ hq0 hq1), F64.mul_fin_fin,
    mul_zero, F64.ofMag_zero, F64.mul_fin_fin, mul_zero, F64.ofMag_zero]
  cases s <;> rfl

theorem haversineA_self (rt : Runtime) (lat lon : F64)
    (hlat : lat.absLe 90 = true) (hlon : lon.absLe 180 = true)
    (hsin : rt.Sin (F64.fin false 0) = F64.fin false 0)
    (hcos : (rt.Cos (rad lat)).absLe 1 = true) :
    haversineA rt lat lon lat lon = F64.fin false 0 := by
  obtain ⟨s, m, rfl, -, -⟩ := F64.absLe_fin lat 90 hlat
  obtain ⟨t, n, rfl, -, -⟩ := F64.absLe_fin lon 180 hlon
  unfold haversineA
  rw [F64.sub_self_fin, F64.sub_self_fin, rad_zero, half_zero, hsin, F64.sq_mul_zero _ hcos]
  decide!

/-- C9: for every coordinate `(lat, lon)` with `lat` in `[-90, 90]` and `lon` in
`[-180, 180]`, `haversineMeters(lat, lon, lat, lon)` is exactly 0, for every runtime
that has the special cases of package `math` used on the way: `Sin(+0) = +0`,
`Sqrt(+0) = +0`, `Sqrt(1) = 1`, `Atan2(+0, 1) = +0`, and a cosine of magnitude at
most 1 at the latitude. -/
theorem haversineMeters_self (rt : Runtime) (lat lon : F64)
    (hlat : lat.absLe 90 = true) (hlon : lon.absLe 180 = true)
    (hsin : rt.Sin (F64.fin false 0) = F64.fin false 0)
    (hcos : (rt.Cos (rad lat)).absLe 1 = true)
    (hsqrt0 : rt.Sqrt (F64.fin false 0) = F64.fin false 0)
    (hsqrt1 : rt.Sqrt (F64.fin false 1) = F64.fin false 1)
    (hatan : rt.Atan2 (F64.fin false 0) (F64.fin false 1) = F64.fin false 0) :
    haversineMeters rt lat lon lat lon = 0 := by
  unfold haversineMeters
  rw [haversineA_self rt lat lon hlat hlon hsin hcos, hsqrt0]
  have h1 : (F64.ofInt 1).sub (F64.fin false 0) = F64.fin false 1 := by decide!
  rw [h1, hsqrt1, hatan]
  have h2 : (F64.ofInt 6371000).mul ((F64.ofInt 2).mul (F64.fin false 0)) = F64.fin false 0 := by
    decide!
  rw [h2, F64.toInt_round_natCast rt.floatToIntUndef false 0 0 (by norm_num) (by norm_num)]
  rfl

/-- The point `(10.5, 20.7)` of `TestHaversineMeters`. -/
theorem haversineMeters_self_witness :
    ((F64.ofMag false (105 / 10)).absLe 90 = true ∧
      (F64.ofMag false (207 / 10)).absLe 180 = true ∧
      refRuntime.Sin (F64.fin false 0) = F64.fin false 0 ∧
      (refRuntime.Cos (rad (F64.ofMag false (105 / 10)))).absLe 1 = true ∧
      refRuntime.Sqrt (F64.fin false 0) = F64.fin false 0 ∧
      refRuntime.Sqrt (F64.fin false 1) = F64.fin false 1 ∧
      refRuntime.Atan2 (F64.fin false 0) (F64.fin false 1) = F64.fin false 0) ∧
    haversineMeters refRuntime (F64.ofMag false (105 / 10)) (F64.ofMag false (207 / 10))
      (F64.ofMag false (105 / 10)) (F64.ofMag false (207 / 10)) = 0 :=
  ⟨⟨by decide!, by decide!, by decide!, by decide!, by decide!, by decide!, by decide!⟩,
    haversineMeters_self refRuntime (F64.ofMag false (105 / 10)) (F64.ofMag false (207 / 10))
      (by decide!) (by decide!) (by decide!) (by decide!) (by decide!) (by decide!)
      (by decide!)⟩

/-! ### Signs and symmetry of the float operations -/

theorem F64.neg_neg_eq (x : F64) : x.neg.neg = x := by
  cases x <;> simp [F64.neg]

theorem F64.neg_ofMag (s : Bool) (q : ℚ) : (F64.ofMag s q).neg = F64.ofMag (!s) q := by
  unfold F64.ofMag
  split_ifs <;> rfl

/-- Swapping the operands of a subtraction negates the result, except that both
orders give `+0` when the exact difference is zero and the operands have the same
sign. -/
theorem F64.sub_swap (x y : F64) :
    y.sub x = (x.sub y).neg ∨ (x.sub y = F64.fin false 0 ∧ y.sub x = F64.fin false 0) := by
  cases x with
  | nan => left; cases y <;> rfl
  | inf a =>
    cases y with
    | nan => left; rfl
    | inf b => left; cases a <;> cases b <;> rfl
    | fin t n => left; rfl
  | fin s m =>
    cases y with
    | nan => left; rfl
    | inf b => left; cases b <;> rfl
    | fin t n =>
      have hxy : (F64.fin s m).sub (F64.fin t n)
          = F64.ofRat (s && !t) ((F64.fin s m).toRat - (F64.fin t n).toRat) := by
        show F64.ofRat (s && !t) ((F64.fin s m).toRat + (F64.fin (!t) n).toRat) = _
        congr 1
        cases t <;> simp [F64.toRat]
        all_goals ring
      have hyx : (F64.fin t n).sub (F64.fin s m)
          = F64.ofRat (t && !s) (-((F64.fin s m).toRat - (F64.fin t n).toRat)) := by
        show F64.ofRat (t && !s) ((F64.fin t n).toRat + (F64.fin (!s) m).toRat) = _
        congr 1
        cases s <;> simp [F64.toRat]
        all_goals ring
      rw [hxy, hyx]
      generalize (F64.fin s m).toRat - (F64.fin t n).toRat = e
      unfold F64.ofRat
      by_cases he : e = 0
      · subst he
        simp only [neg_zero, if_true]
        cases s <;> cases t <;> simp [F64.neg]
      · left
        have hne : -e ≠ 0 := neg_ne_zero.mpr he
        rw [if_neg he, if_neg hne, F64.neg_ofMag, abs_neg]
        congr 1
        rcases lt_or_gt_of_ne he with h | h
        · have h' : ¬ (-e < 0) := by linarith
          simp [h, h']
        · have h' : ¬ (e < 0) := by linarith
          have h'' : -e < 0 := by linarith
          simp [h', h'']

theorem F64.mul_neg_left (x y : F64) : x.neg.mul y = (x.mul y).neg := by
  cases x with
  | nan => cases y <;> rfl
  | inf a =>
    cases y with
    | nan => rfl
    | inf b => cases a <;> cases b <;> rfl
    | fin t n =>
      show (if n = 0 then F64.nan else F64.inf (xor (!a) t))
        = (if n = 0 then F64.nan else F64.inf (xor a t)).neg
      split_ifs
      · rfl
      · cases a <;> cases t <;> rfl
  | fin s m =>
    cases y with
    | nan => rfl
    | inf b =>
      show (if m = 0 then F64.nan else F64.inf (xor (!s) b))
        = (if m = 0 then F64.nan else F64.inf (xor s b)).neg
      split_ifs
      · rfl
      · cases s <;> cases b <;> rfl
    | fin t n =>
      show F64.ofMag (xor (!s) t) (m * n) = (F64.ofMag (xor s t) (m * n)).neg
      rw [F64.neg_ofMag]
      cases s <;> cases t <;> rfl

theorem F64.mul_swap (x y : F64) : x.mul y = y.mul x := by
  cases x with
  | nan => cases y <;> rfl
  | inf a =>
    cases y with
    | nan => rfl
    | inf b => cases a <;> cases b <;> rfl
    | fin t n =>
      show (if n = 0 then F64.nan else F64.inf (xor a t))
        = (if n = 0 then F64.nan else F64.inf (xor t a))
      cases a <;> cases t <;> rfl
  | fin s m =>
    cases y with
    | nan => rfl
    | inf b =>
      show (if m = 0 then F64.nan else F64.inf (xor s b))
        = (if m = 0 then F64.nan else F64.inf (xor b s))
      cases s <;> cases b <;> rfl
    | fin t n =>
      show F64.ofMag (xor s t) (m * n) = F64.ofMag (xor t s) (n * m)
      rw [Rat.mul_comm m n]
      cases s <;> cases t <;> rfl

theorem F64.mul_neg_right (x y : F64) : x.mul y.neg = (x.mul y).neg := by
  rw [F64.mul_swap, F64.mul_neg_left, F64.mul_swap]

theorem F64.mul_neg_neg (x y : F64) : x.neg.mul y.neg = x.mul y := by
  rw [F64.mul_neg_left, F64.mul_neg_right, F64.neg_neg_eq]

theorem F64.div_neg_left (x y : F64) : x.neg.div y = (x.div y).neg := by
  cases x with
  | nan => cases y <;> rfl
  | inf a =>
    cases y with
    | nan => rfl
    | inf b => rfl
    | fin t n => cases a <;> cases t <;> rfl
  | fin s m =>
    cases y with
    | nan => rfl
    | inf b => cases s <;> cases b <;> rfl
    | fin t n =>
      show (if n = 0 then (if m = 0 then F64.nan else F64.inf (xor (!s) t))
          else F64.ofMag (xor (!s) t) (m / n))
        = (if n = 0 then (if m = 0 then F64.nan else F64.inf (xor s t))
          else F64.ofMag (xor s t) (m / n)).neg
      split_ifs
      · rfl
      · cases s <;> cases t <;> rfl
      · rw [F64.neg_ofMag]
        cases s <;> cases t <;> rfl

theorem rad_neg (x : F64) : rad x.neg = (rad x).neg := by
  unfold rad
  rw [F64.mul_neg_left, F64.div_neg_left]

/-- The squared half-angle sine of `haversineMeters` does not depend on the order
of the subtraction, when `Sin` is odd. -/
theorem sin_half_sq_swap (rt : Runtime) (hodd : ∀ x, rt.Sin x.neg = (rt.Sin x).neg)
    (c x y : F64) :
    (c.mul (rt.Sin ((rad (y.sub x)).div (F64.ofInt 2)))).mul
        (rt.Sin ((rad (y.sub x)).div (F64.ofInt 2))) =
      (c.mul (rt.Sin ((rad (x.sub y)).div (F64.ofInt 2)))).mul
        (rt.Sin ((rad (x.sub y)).div (F64.ofInt 2))) := by
  rcases F64.sub_swap x y with h | ⟨h1, h2⟩
  · rw [h, rad_neg, F64.div_neg_left, hodd,
      F64.mul_neg_right c (rt.Sin ((rad (x.sub y)).div (F64.ofInt 2))), F64.mul_neg_neg]
  · rw [h1, h2]

theorem sin_half_sq_swap_one (rt : Runtime) (hodd : ∀ x, rt.Sin x.neg = (rt.Sin x).neg)
    (x y : F64) :
    (rt.Sin ((rad (y.sub x)).div (F64.ofInt 2))).mul
        (rt.Sin ((rad (y.sub x)).div (F64.ofInt 2))) =
      (rt.Sin ((rad (x.sub y)).div (F64.ofInt 2))).mul
        (rt.Sin ((rad (x.sub y)).div (F64.ofInt 2))) := by
  rcases F64.sub_swap x y with h | ⟨h1, h2⟩
  · rw [h, rad_neg, F64.div_neg_left, hodd, F64.mul_neg_neg]
  · rw [h1, h2]

theorem haversineA_symm (rt : Runtime) (hodd : ∀ x, rt.Sin x.neg = (rt.Sin x).neg)
    (lat1 lon1 lat2 lon2 : F64) :
    haversineA rt lat1 lon1 lat2 lon2 = haversineA rt lat2 lon2 lat1 lon1 := by
  unfold haversineA
  rw [sin_half_sq_swap_one rt hodd lat1 lat2, sin_half_sq_swap rt hodd _ lon1 lon2,
    F64.mul_swap (rt.Cos (rad lat1)) (rt.Cos (rad lat2))]

theorem refSin_neg (x : F64) : refSin x.neg = (refSin x).neg := by
  cases x with
  | nan => rfl
  | inf s => rfl
  | fin s m =>
    show (if m = 0 then F64.fin (!s) 0 else F64.ofMag (!s) (trigSeries m 9 1))
      = (if m = 0 then F64.fin s 0 else F64.ofMag s (trigSeries m 9 1)).neg
    split_ifs
    · rfl
    · rw [F64.neg_ofMag]

/-- C10: `haversineMeters(lat1, lon1, lat2, lon2) = haversineMeters(lat2, lon2, lat1, lon1)`
for all coordinates (in particular for those in the valid ranges), for every runtime
whose `Sin` is an odd function, as `math.Sin` is. -/
theorem haversineMeters_symm (rt : Runtime) (hodd : ∀ x, rt.Sin x.neg = (rt.Sin x).neg)
    (lat1 lon1 lat2 lon2 : F64) :
    haversineMeters rt lat1 lon1 lat2 lon2 = haversineMeters rt lat2 lon2 lat1 lon1 := by
  unfold haversineMeters
  rw [haversineA_symm rt hodd lat1 lon1 lat2 lon2]

/-- Two points about 1.2 km apart, in both orders. -/
theorem haversineMeters_symm_witness :
    (∀ x, refRuntime.Sin x.neg = (refRuntime.Sin x).neg) ∧
    haversineMeters refRuntime (F64.ofMag false (6017 / 100)) (F64.ofMag false (2494 / 100))
        (F64.ofMag false (6018 / 100)) (F64.ofMag false (2495 / 100)) =
      haversineMeters refRuntime (F64.ofMag false (6018 / 100)) (F64.ofMag false (2495 / 100))
        (F64.ofMag false (6017 / 100)) (F64.ofMag false (2494 / 100)) :=
  ⟨refSin_neg, haversineMeters_symm refRuntime refSin_neg _ _ _ _⟩

end DOPC
